import Mathlib

/-!
# Verification of the DW-MAKNet windowed sequence remapping core

Shallow embedding of the grid partitioner, the four-directional sequence
flattener (`rearrange_center_blocks`) and the sequence recoverer
(`recover_window_lr`, `recover_window_ud`, `recover_center_blocks`) from
`dwmaknet/nnunetv2/nets/DWMAKNet.py`.

A grid is modelled as a total function `ℕ → ℕ → α` from (row, col) to the
cell value; the batch and channel dimensions of the tensors are opaque in
`α` because every tensor operation used by the core (slicing on the two
spatial dimensions, reshape of the spatial dimensions to the flat axis,
concatenation and flip along the flat axis, elementwise addition) acts
uniformly on the leading batch/channel dimensions.  Sequences are `List α`,
recovered grids are `List (List α)` (row-major list of rows).

Python/torch partial operations are modelled with `Option`:
`rearrange_center_blocks` returns `none` exactly when the Python function
raises (it reads the local variables `top_left`, …, `bottom_right`
unconditionally when building `blocks_ud`, so it raises `NameError`
whenever one of the guarded assignments was skipped), and the recoverers
return `none` exactly when a `torch.reshape` would fail (element count
mismatch).
-/

namespace DWMAKNet

variable {α : Type} {β : Type}

/-- `x[:, :, r0:r1, c0:c1].reshape(B, C, -1)`: the cells of the axis-aligned
sub-rectangle with half-open row range `[r0, r1)` and column range
`[c0, c1)`, flattened row-major (row outer, column inner). -/
def blockRM (g : ℕ → ℕ → α) (r0 r1 c0 c1 : ℕ) : List α :=
  ((List.range (r1 - r0)).map fun i =>
    (List.range (c1 - c0)).map fun j => g (r0 + i) (c0 + j)).flatten

/-- `x[:, :, r0:r1, c0:c1].transpose(2, 3).contiguous().view(B, C, -1)`:
the same rectangle flattened column-major (column outer, row inner). -/
def blockCM (g : ℕ → ℕ → α) (r0 r1 c0 c1 : ℕ) : List α :=
  ((List.range (c1 - c0)).map fun j =>
    (List.range (r1 - r0)).map fun i => g (r0 + i) (c0 + j)).flatten

/-- `output1` of `rearrange_center_blocks`: the nine region blocks in LR
order (TL, T, TR, L, C, R, BL, B, BR), each flattened row-major and
concatenated.  Degenerate regions contribute the empty list, which is
exactly what omitting them from `blocks_lr` contributes to `torch.cat`. -/
def flattenLR (g : ℕ → ℕ → α) (H W kernel : ℕ) : List α :=
  let h_center := (H - kernel) / 2
  let w_center := (W - kernel) / 2
  blockRM g 0 h_center 0 w_center ++
  blockRM g 0 h_center w_center (w_center + kernel) ++
  blockRM g 0 h_center (w_center + kernel) W ++
  blockRM g h_center (h_center + kernel) 0 w_center ++
  blockRM g h_center (h_center + kernel) w_center (w_center + kernel) ++
  blockRM g h_center (h_center + kernel) (w_center + kernel) W ++
  blockRM g (h_center + kernel) H 0 w_center ++
  blockRM g (h_center + kernel) H w_center (w_center + kernel) ++
  blockRM g (h_center + kernel) H (w_center + kernel) W

/-- `output2` of `rearrange_center_blocks`: the nine region blocks in UD
order (TL, L, BL, T, C, B, TR, R, BR), each flattened column-major
(transposed before the view) and concatenated. -/
def flattenUD (g : ℕ → ℕ → α) (H W kernel : ℕ) : List α :=
  let h_center := (H - kernel) / 2
  let w_center := (W - kernel) / 2
  blockCM g 0 h_center 0 w_center ++
  blockCM g h_center (h_center + kernel) 0 w_center ++
  blockCM g (h_center + kernel) H 0 w_center ++
  blockCM g 0 h_center w_center (w_center + kernel) ++
  blockCM g h_center (h_center + kernel) w_center (w_center + kernel) ++
  blockCM g (h_center + kernel) H w_center (w_center + kernel) ++
  blockCM g 0 h_center (w_center + kernel) W ++
  blockCM g h_center (h_center + kernel) (w_center + kernel) W ++
  blockCM g (h_center + kernel) H (w_center + kernel) W

/-- The four directional sequences returned (stacked) by
`rearrange_center_blocks`: `output1` (LR), `output2` (UD),
`output3 = flip(output1)` (RL), `output4 = flip(output2)` (DU). -/
structure RearOut (α : Type) where
  lr : List α
  ud : List α
  rl : List α
  du : List α
deriving DecidableEq, Repr

/-- `rearrange_center_blocks(x, kernel)` for a grid of shape `(H, W)`.
The Python function builds `blocks_lr` under per-region degeneracy guards
but then builds `blocks_ud` by reading all nine block variables
unconditionally, so it raises `NameError` whenever one of the guards was
false; the guards are all true iff `h_center`, `w_center` and the two
opposite extents `H - (h_center + kernel)` and `W - (w_center + kernel)`
are all positive.  `none` models that failure. -/
def rearrange_center_blocks (g : ℕ → ℕ → α) (H W kernel : ℕ) :
    Option (RearOut α) :=
  let h_center := (H - kernel) / 2
  let w_center := (W - kernel) / 2
  if 0 < h_center ∧ 0 < w_center ∧
      0 < H - (h_center + kernel) ∧ 0 < W - (w_center + kernel) then
    some ⟨flattenLR g H W kernel, flattenUD g H W kernel,
          (flattenLR g H W kernel).reverse, (flattenUD g H W kernel).reverse⟩
  else none

/-- An axis-aligned region of the grid: half-open row range `[r0, r1)` and
column range `[c0, c1)`. -/
structure Region where
  r0 : ℕ
  r1 : ℕ
  c0 : ℕ
  c1 : ℕ
deriving DecidableEq, Repr

/-- The regions appended to `blocks_lr` by `rearrange_center_blocks`, with
the source's inclusion guards, in source order; the Center region is
always included. -/
def regionsLR (H W kernel : ℕ) : List Region :=
  let h_center := (H - kernel) / 2
  let w_center := (W - kernel) / 2
  (if 0 < h_center ∧ 0 < w_center then [⟨0, h_center, 0, w_center⟩] else []) ++
  (if 0 < h_center then [⟨0, h_center, w_center, w_center + kernel⟩] else []) ++
  (if 0 < h_center ∧ 0 < W - (w_center + kernel) then
    [⟨0, h_center, w_center + kernel, W⟩] else []) ++
  (if 0 < w_center then [⟨h_center, h_center + kernel, 0, w_center⟩] else []) ++
  [⟨h_center, h_center + kernel, w_center, w_center + kernel⟩] ++
  (if 0 < W - (w_center + kernel) then
    [⟨h_center, h_center + kernel, w_center + kernel, W⟩] else []) ++
  (if 0 < H - (h_center + kernel) ∧ 0 < w_center then
    [⟨h_center + kernel, H, 0, w_center⟩] else []) ++
  (if 0 < H - (h_center + kernel) then
    [⟨h_center + kernel, H, w_center, w_center + kernel⟩] else []) ++
  (if 0 < H - (h_center + kernel) ∧ 0 < W - (w_center + kernel) then
    [⟨h_center + kernel, H, w_center + kernel, W⟩] else [])

/-- The cells of a region, row-major, as (row, col) pairs. -/
def Region.cells (R : Region) : List (ℕ × ℕ) :=
  blockRM (fun r c => (r, c)) R.r0 R.r1 R.c0 R.c1

/-- Decidable test that `(r, c)` lies in region `R`. -/
def Region.containsB (R : Region) (r c : ℕ) : Bool :=
  decide ((R.r0 ≤ r ∧ r < R.r1) ∧ (R.c0 ≤ c ∧ c < R.c1))

/-- All cells of an `H × W` grid in row-major order. -/
def allCells (H W : ℕ) : List (ℕ × ℕ) :=
  blockRM (fun r c => (r, c)) 0 H 0 W

/-- The slice `x[:, :, a:b]` along the flat axis (clamped like Python). -/
def seg (x : List α) (a b : ℕ) : List α := (x.drop a).take (b - a)

/-- `t.reshape(B, C, h, w)` of a flat slice: succeeds iff the element
count matches, and lays the elements out row-major. -/
def reshapeRows (l : List α) (h w : ℕ) : Option (List (List α)) :=
  if l.length = h * w then
    some ((List.range h).map fun i => (l.drop (i * w)).take w)
  else none

/-- `torch.cat((a, b, c), dim=3)`: rowwise concatenation of three
recovered blocks with equal row counts. -/
def hcat3 (a b c : List (List α)) : List (List α) :=
  List.zipWith (· ++ ·) (List.zipWith (· ++ ·) a b) c

/-- `recover_window_lr(x, kernel)`: splits the flat sequence at the
source's offsets (branching on the parity of `kernel`), reshapes each
segment row-major to its region shape, and reassembles the grid from the
three row bands. -/
def recover_window_lr (x : List α) (kernel : ℕ) : Option (List (List α)) :=
  let short := kernel / 2
  let small_l := short * short
  let medium_l := short * short * 2
  let high_l := short * short * 4
  if kernel % 2 = 0 then do
    let top_left ← reshapeRows (seg x 0 small_l) short short
    let top ← reshapeRows (seg x small_l (small_l + medium_l)) short (short * 2)
    let top_right ← reshapeRows
      (seg x (small_l + medium_l) (2 * small_l + medium_l)) short short
    let left ← reshapeRows
      (seg x (2 * small_l + medium_l) (2 * small_l + 2 * medium_l))
      (short * 2) short
    let center_block ← reshapeRows
      (seg x (2 * small_l + 2 * medium_l) (2 * small_l + 2 * medium_l + high_l))
      (short * 2) (short * 2)
    let right ← reshapeRows
      (seg x (2 * small_l + 2 * medium_l + high_l)
        (2 * small_l + 3 * medium_l + high_l)) (short * 2) short
    let bottom_left ← reshapeRows
      (seg x (2 * small_l + 3 * medium_l + high_l)
        (3 * small_l + 3 * medium_l + high_l)) short short
    let bottom ← reshapeRows
      (seg x (3 * small_l + 3 * medium_l + high_l)
        (3 * small_l + 4 * medium_l + high_l)) short (short * 2)
    let bottom_right ← reshapeRows
      (x.drop (3 * small_l + 4 * medium_l + high_l)) short short
    pure (hcat3 top_left top top_right ++ hcat3 left center_block right ++
      hcat3 bottom_left bottom bottom_right)
  else do
    let short1 := kernel / 2 + 1
    let l1 := short * short
    let l2 := short * short1
    let l3 := short * kernel
    let l5 := short1 * kernel
    let l6 := kernel * kernel
    let top_left ← reshapeRows (seg x 0 l1) short short
    let top ← reshapeRows (seg x l1 (l1 + l3)) short kernel
    let top_right ← reshapeRows (seg x (l1 + l3) (l1 + l2 + l3)) short short1
    let left ← reshapeRows
      (seg x (l1 + l2 + l3) (l1 + l2 + 2 * l3)) kernel short
    let center_block ← reshapeRows
      (seg x (l1 + l2 + 2 * l3) (l1 + l2 + 2 * l3 + l6)) kernel kernel
    let right ← reshapeRows
      (seg x (l1 + l2 + 2 * l3 + l6) (l1 + l2 + 2 * l3 + l5 + l6))
      kernel short1
    let bottom_left ← reshapeRows
      (seg x (l1 + l2 + 2 * l3 + l5 + l6) (l1 + 2 * l2 + 2 * l3 + l5 + l6))
      short1 short
    let bottom ← reshapeRows
      (seg x (l1 + 2 * l2 + 2 * l3 + l5 + l6)
        (l1 + 2 * l2 + 2 * l3 + 2 * l5 + l6)) short1 kernel
    let bottom_right ← reshapeRows
      (x.drop (l1 + 2 * l2 + 2 * l3 + 2 * l5 + l6)) short1 short1
    pure (hcat3 top_left top top_right ++ hcat3 left center_block right ++
      hcat3 bottom_left bottom bottom_right)

/-- `recover_window_ud(x, kernel)`: same structure with the UD region
order (TL, L, BL, T, C, B, TR, R, BR).  Note that, exactly as in the
source, every segment is reshaped row-major — there is no transposition
back from the column-major order used by the UD flattening. -/
def recover_window_ud (x : List α) (kernel : ℕ) : Option (List (List α)) :=
  let short := kernel / 2
  let small_l := short * short
  let medium_l := short * short * 2
  let high_l := short * short * 4
  if kernel % 2 = 0 then do
    let top_left ← reshapeRows (seg x 0 small_l) short short
    let left ← reshapeRows (seg x small_l (small_l + medium_l)) (short * 2) short
    let bottom_left ← reshapeRows
      (seg x (small_l + medium_l) (2 * small_l + medium_l)) short short
    let top ← reshapeRows
      (seg x (2 * small_l + medium_l) (2 * small_l + 2 * medium_l))
      short (short * 2)
    let center_block ← reshapeRows
      (seg x (2 * small_l + 2 * medium_l) (2 * small_l + 2 * medium_l + high_l))
      (short * 2) (short * 2)
    let bottom ← reshapeRows
      (seg x (2 * small_l + 2 * medium_l + high_l)
        (2 * small_l + 3 * medium_l + high_l)) short (short * 2)
    let top_right ← reshapeRows
      (seg x (2 * small_l + 3 * medium_l + high_l)
        (3 * small_l + 3 * medium_l + high_l)) short short
    let right ← reshapeRows
      (seg x (3 * small_l + 3 * medium_l + high_l)
        (3 * small_l + 4 * medium_l + high_l)) (short * 2) short
    let bottom_right ← reshapeRows
      (x.drop (3 * small_l + 4 * medium_l + high_l)) short short
    pure (hcat3 top_left top top_right ++ hcat3 left center_block right ++
      hcat3 bottom_left bottom bottom_right)
  else do
    let short1 := kernel / 2 + 1
    let l1 := short * short
    let l2 := short * short1
    let l3 := short * kernel
    let l5 := short1 * kernel
    let l6 := kernel * kernel
    let top_left ← reshapeRows (seg x 0 l1) short short
    let left ← reshapeRows (seg x l1 (l1 + l3)) kernel short
    let bottom_left ← reshapeRows (seg x (l1 + l3) (l1 + l2 + l3)) short1 short
    let top ← reshapeRows
      (seg x (l1 + l2 + l3) (l1 + l2 + 2 * l3)) short kernel
    let center_block ← reshapeRows
      (seg x (l1 + l2 + 2 * l3) (l1 + l2 + 2 * l3 + l6)) kernel kernel
    let bottom ← reshapeRows
      (seg x (l1 + l2 + 2 * l3 + l6) (l1 + l2 + 2 * l3 + l5 + l6))
      short1 kernel
    let top_right ← reshapeRows
      (seg x (l1 + l2 + 2 * l3 + l5 + l6) (l1 + 2 * l2 + 2 * l3 + l5 + l6))
      short short1
    let right ← reshapeRows
      (seg x (l1 + 2 * l2 + 2 * l3 + l5 + l6)
        (l1 + 2 * l2 + 2 * l3 + 2 * l5 + l6)) kernel short1
    let bottom_right ← reshapeRows
      (x.drop (l1 + 2 * l2 + 2 * l3 + 2 * l5 + l6)) short1 short1
    pure (hcat3 top_left top top_right ++ hcat3 left center_block right ++
      hcat3 bottom_left bottom bottom_right)

/-- `recover_center_blocks(x, kernel)` where `x` stacks the four output
sequences in the order produced by `rearrange_center_blocks`
(`x[:,0] = LR`, `x[:,1] = UD`, `x[:,2] = RL`, `x[:,3] = DU`): flips the
RL and DU sequences back, sums them elementwise with the LR and UD
sequences, recovers each sum and adds the two recovered grids. -/
def recover_center_blocks [Add α] (lr ud rl du : List α) (kernel : ℕ) :
    Option (List (List α)) := do
  let y1 ← recover_window_lr (List.zipWith (· + ·) lr rl.reverse) kernel
  let y2 ← recover_window_ud (List.zipWith (· + ·) ud du.reverse) kernel
  pure (List.zipWith (List.zipWith (· + ·)) y1 y2)

/-- The grid as a row-major list of rows (the shape `(H, W)` tensor). -/
def gridRM (g : ℕ → ℕ → α) (H W : ℕ) : List (List α) :=
  (List.range H).map fun r => (List.range W).map fun c => g r c

/-- The spec §8 round-trip test with the identity Scan stub: flatten the
grid into the four directional sequences with `rearrange_center_blocks`
and feed them unchanged to `recover_center_blocks`. -/
def identity_scan_round_trip [Add α] (g : ℕ → ℕ → α) (H W kernel : ℕ) :
    Option (List (List α)) :=
  match rearrange_center_blocks g H W kernel with
  | some o => recover_center_blocks o.lr o.ud o.rl o.du kernel
  | none => none

/-- The nine segment lengths used by `recover_window_lr`, in slicing
order, for each parity branch. -/
def segLensLR (kernel : ℕ) : List ℕ :=
  let short := kernel / 2
  if kernel % 2 = 0 then
    [short * short, short * short * 2, short * short,
     short * short * 2, short * short * 4, short * short * 2,
     short * short, short * short * 2, short * short]
  else
    let short1 := kernel / 2 + 1
    [short * short, short * kernel, short * short1,
     short * kernel, kernel * kernel, short1 * kernel,
     short * short1, short1 * kernel, short1 * short1]

/-- The nine segment lengths used by `recover_window_ud`, in slicing
order, for each parity branch. -/
def segLensUD (kernel : ℕ) : List ℕ :=
  let short := kernel / 2
  if kernel % 2 = 0 then
    [short * short, short * short * 2, short * short,
     short * short * 2, short * short * 4, short * short * 2,
     short * short, short * short * 2, short * short]
  else
    let short1 := kernel / 2 + 1
    [short * short, short * kernel, short * short1,
     short * kernel, kernel * kernel, short1 * kernel,
     short * short1, short1 * kernel, short1 * short1]

/-- The indices covered by consecutive segments of the given lengths
starting at `s`. -/
def coverList (s : ℕ) : List ℕ → List ℕ
  | [] => []
  | l :: ls => List.range' s l ++ coverList (s + l) ls

/-- The window size chosen by `C_SS2D.forward`: `kernel = H // 2`. -/
def C_SS2D_kernel (H : ℕ) : ℕ := H / 2

/-- The §8 identity-tagged 4×4 grid: cell value `4*r + c`. -/
def tagGrid4 : ℕ → ℕ → ℕ := fun r c => 4 * r + c

/-- The identity-tagged grid of (row, col) pairs used to trace positions. -/
def idGrid : ℕ → ℕ → ℕ × ℕ := fun r c => (r, c)

/-- A zero sequence of length 16 (a flattened all-zero 4×4 grid). -/
def zeros16 : List ℕ := List.replicate 16 0

/-- The rows of the region `[r0, r1) × [c0, c1)` of the grid, row-major. -/
def regionRows (g : ℕ → ℕ → α) (r0 r1 c0 c1 : ℕ) : List (List α) :=
  (List.range (r1 - r0)).map fun i =>
    (List.range (c1 - c0)).map fun j => g (r0 + i) (c0 + j)

/-- The concrete output of `rearrange_center_blocks` on the §8 grid. -/
def rearOut442 : RearOut ℕ :=
  ⟨[0, 1, 2, 3, 4, 8, 5, 6, 9, 10, 7, 11, 12, 13, 14, 15],
   [0, 4, 8, 12, 1, 2, 5, 9, 6, 10, 13, 14, 3, 7, 11, 15],
   [15, 14, 13, 12, 11, 7, 10, 9, 6, 5, 8, 4, 3, 2, 1, 0],
   [15, 11, 7, 3, 14, 13, 10, 6, 9, 5, 2, 1, 12, 8, 4, 0]⟩

/-- The output of `rearrange_center_blocks` on the identity-tagged 4×4
grid with `kernel = 2`. -/
def rearOutPairs442 : RearOut (ℕ × ℕ) :=
  ⟨[(0, 0), (0, 1), (0, 2), (0, 3), (1, 0), (2, 0), (1, 1), (1, 2),
    (2, 1), (2, 2), (1, 3), (2, 3), (3, 0), (3, 1), (3, 2), (3, 3)],
   [(0, 0), (1, 0), (2, 0), (3, 0), (0, 1), (0, 2), (1, 1), (2, 1),
    (1, 2), (2, 2), (3, 1), (3, 2), (0, 3), (1, 3), (2, 3), (3, 3)],
   [(3, 3), (3, 2), (3, 1), (3, 0), (2, 3), (1, 3), (2, 2), (2, 1),
    (1, 2), (1, 1), (2, 0), (1, 0), (0, 3), (0, 2), (0, 1), (0, 0)],
   [(3, 3), (2, 3), (1, 3), (0, 3), (3, 2), (3, 1), (2, 2), (1, 2),
    (2, 1), (1, 1), (0, 2), (0, 1), (3, 0), (2, 0), (1, 0), (0, 0)]⟩

/-! ## Basic facts about the building blocks -/

theorem length_blockRM (g : ℕ → ℕ → α) (r0 r1 c0 c1 : ℕ) :
    (blockRM g r0 r1 c0 c1).length = (r1 - r0) * (c1 - c0) := by
  simp [blockRM, List.length_flatten, List.map_map, Function.comp_def,
    List.map_const', List.sum_replicate, smul_eq_mul]

theorem length_blockCM (g : ℕ → ℕ → α) (r0 r1 c0 c1 : ℕ) :
    (blockCM g r0 r1 c0 c1).length = (r1 - r0) * (c1 - c0) := by
  simp [blockCM, List.length_flatten, List.map_map, Function.comp_def,
    List.map_const', List.sum_replicate, smul_eq_mul, Nat.mul_comm]

theorem blockRM_nil (g : ℕ → ℕ → α) (r0 r1 c0 c1 : ℕ)
    (h : r1 - r0 = 0 ∨ c1 - c0 = 0) : blockRM g r0 r1 c0 c1 = [] := by
  rcases h with h | h <;>
    simp_all [blockRM, List.flatten_eq_nil_iff, List.mem_map]

theorem seg_of_prefix {B : List α} {n : ℕ} (T : List α) (hB : B.length = n) :
    seg (B ++ T) 0 n = B := by
  simp [seg, List.take_left' hB]

theorem seg_shift {B : List α} {n : ℕ} (T : List α) (a b : ℕ)
    (hB : B.length = n) : seg (B ++ T) (n + a) (n + b) = seg T a b := by
  unfold seg
  rw [← hB, List.drop_append]
  congr 1
  omega

theorem drop_of_prefix {B : List α} {n : ℕ} (T : List α) (hB : B.length = n) :
    (B ++ T).drop n = T := List.drop_left' hB

/-! ## Concrete counterexamples and failing-input evaluations -/

/-- C1 (counterexample): on the §8 end-to-end grid (`H = W = 4`,
`kernel = 2`, cell value `4*r + c`) the identity-scan round trip does not
return `2 ×` the original grid: the LR pair contributes `2 × G`, but the
UD pair contributes `2 ×` the (non-inverting) UD round trip of `G`, so the
cell `(1, 2)` holds `2*6 + 2*9 = 30`, not `12`. -/
theorem round_trip_ne_twice_grid :
    identity_scan_round_trip tagGrid4 4 4 2 ≠
      some (gridRM (fun r c => 2 * tagGrid4 r c) 4 4) := by decide

/-- C3 (code bug, failing input): with `kernel = 2` on the identity-tagged
4×4 grid, `recover_window_ud` applied to the UD flattening reshapes each
segment row-major without transposing back from column-major, so the
recovered center block is transposed — cell `(1, 2)` holds the tag of
`(2, 1)` and vice versa — instead of reproducing the grid as the spec
requires. -/
theorem recover_ud_fails_to_invert_flattenUD :
    recover_window_ud (flattenUD idGrid 4 4 2) 2 =
        some [[(0, 0), (0, 1), (0, 2), (0, 3)],
              [(1, 0), (1, 1), (2, 1), (1, 3)],
              [(2, 0), (1, 2), (2, 2), (2, 3)],
              [(3, 0), (3, 1), (3, 2), (3, 3)]] ∧
      recover_window_ud (flattenUD idGrid 4 4 2) 2 ≠
        some (gridRM idGrid 4 4) := by decide

/-- C4 (counterexample): feeding `lr = rl = du = 0` and
`ud = flatten_UD(G)` to the recoverer makes `s_lr = 0` and
`s_ud = flatten_UD(G)`; if the recoverer inverted the UD flattening on
`s_ud` the result would be `0 + G = G`, but `recover_window_ud` does not
transpose segments back, so the result differs from `G`. -/
theorem recover_center_blocks_not_inverting_ud :
    recover_center_blocks zeros16 (flattenUD tagGrid4 4 4 2) zeros16 zeros16 2 ≠
      some (gridRM tagGrid4 4 4) := by decide

/-- C7 (counterexample): `rearrange_center_blocks` performs no kernel
validation at all — with the invalid `kernel = 0` on a 4×4 grid it
completes without any failure, while with the valid `kernel = 2` on a 2×2
grid it fails (unbound-local `NameError` while building `blocks_ud`), so
no `InvalidKernel` iff-contract holds. -/
theorem kernel_zero_succeeds_and_valid_kernel_fails :
    (rearrange_center_blocks tagGrid4 4 4 0).isSome = true ∧
      rearrange_center_blocks tagGrid4 2 2 2 = none := by decide

/-- C7 (amended): the partitioner has no `InvalidKernel` check; its only
failure mode is the unbound-local failure while building `blocks_ud`,
which happens exactly when some surrounding region is degenerate, i.e.
the call succeeds iff `kernel + 2 ≤ H` and `kernel + 2 ≤ W`. -/
theorem rearrange_isSome_iff_margins (g : ℕ → ℕ → α) (H W k : ℕ) :
    (rearrange_center_blocks g H W k).isSome ↔ k + 2 ≤ H ∧ k + 2 ≤ W := by
  simp only [rearrange_center_blocks]
  split
  · rename_i h
    simp only [Option.isSome_some, true_iff]
    omega
  · rename_i h
    simp only [Option.isSome_none, Bool.false_eq_true, false_iff]
    omega

/-- C5 (code bug, failing input): with `H = W = kernel` the partition is
exactly the single Center region `[0, kernel) × [0, kernel)`, as the spec
says, but `rearrange_center_blocks` then fails (the Python code reads the
never-assigned locals `top_left`, … while building `blocks_ud`) instead
of producing the four identity-reshape sequences. -/
theorem degenerate_kernel_center_only_but_rearrange_fails
    (g : ℕ → ℕ → α) (k : ℕ) :
    regionsLR k k k = [⟨0, k, 0, k⟩] ∧
      rearrange_center_blocks g k k k = none := by
  constructor
  · simp [regionsLR, Nat.sub_self]
  · simp [rearrange_center_blocks, Nat.sub_self]

/-- C8: on every successful call, the RL output sequence is the positional
reversal of the LR sequence and the DU output is the reversal of the UD
sequence; position `i` of RL holds exactly the cell value at position
`L - 1 - i` of LR (the opaque per-cell channel vector is untouched). -/
theorem reversal_of_forward_sequences (g : ℕ → ℕ → α) (H W k : ℕ)
    (out : RearOut α) (h : rearrange_center_blocks g H W k = some out) :
    out.rl = out.lr.reverse ∧ out.du = out.ud.reverse ∧
      ∀ i, i < out.lr.length →
        out.rl[i]? = out.lr[out.lr.length - 1 - i]? := by
  simp only [rearrange_center_blocks] at h
  split at h
  · cases h
    refine ⟨rfl, rfl, ?_⟩
    intro i hi
    exact List.getElem?_reverse hi
  · cases h

/-! ## Counting cells in blocks and regions -/

theorem ite_and_mul (P Q : Prop) [Decidable P] [Decidable Q] :
    (if P ∧ Q then 1 else 0) =
      (if P then 1 else 0) * (if Q then 1 else 0) := by
  split_ifs <;> simp_all

theorem count_pair_row (a b r c0 m : ℕ) :
    List.count (a, b) ((List.range' c0 m).map fun c => (r, c)) =
      if a = r ∧ c0 ≤ b ∧ b < c0 + m then 1 else 0 := by
  induction m generalizing c0 with
  | zero =>
    rw [if_neg (by omega)]
    simp
  | succ n ih =>
    rw [List.range'_succ, List.map_cons, List.count_cons, ih]
    simp only [beq_iff_eq, Prod.mk.injEq]
    split_ifs <;> omega

theorem count_pair_col (a b c r0 m : ℕ) :
    List.count (a, b) ((List.range' r0 m).map fun r => (r, c)) =
      if b = c ∧ r0 ≤ a ∧ a < r0 + m then 1 else 0 := by
  induction m generalizing r0 with
  | zero =>
    rw [if_neg (by omega)]
    simp
  | succ n ih =>
    rw [List.range'_succ, List.map_cons, List.count_cons, ih]
    simp only [beq_iff_eq, Prod.mk.injEq]
    split_ifs <;> omega

theorem count_blockRM_pair (a b r0 r1 c0 c1 : ℕ) :
    List.count (a, b) (blockRM (fun r c => (r, c)) r0 r1 c0 c1) =
      if (r0 ≤ a ∧ a < r1) ∧ (c0 ≤ b ∧ b < c1) then 1 else 0 := by
  have hb : blockRM (fun r c => ((r, c) : ℕ × ℕ)) r0 r1 c0 c1 =
      ((List.range' r0 (r1 - r0)).map fun r =>
        (List.range' c0 (c1 - c0)).map fun c => (r, c)).flatten := by
    simp [blockRM, List.range'_eq_map_range, List.map_map, Function.comp_def]
  have aux : ∀ (n s : ℕ),
      List.count (a, b)
        (((List.range' s n).map fun r =>
          (List.range' c0 (c1 - c0)).map fun c => (r, c)).flatten) =
        if (s ≤ a ∧ a < s + n) ∧ (c0 ≤ b ∧ b < c0 + (c1 - c0)) then 1
        else 0 := by
    intro n
    induction n with
    | zero =>
      intro s
      rw [if_neg (by omega)]
      simp
    | succ m ih =>
      intro s
      rw [List.range'_succ, List.map_cons, List.flatten_cons,
        List.count_append, count_pair_row, ih]
      split_ifs <;> omega
  rw [hb, aux]
  exact if_congr (by omega) rfl rfl

theorem count_blockCM_pair (a b r0 r1 c0 c1 : ℕ) :
    List.count (a, b) (blockCM (fun r c => (r, c)) r0 r1 c0 c1) =
      if (r0 ≤ a ∧ a < r1) ∧ (c0 ≤ b ∧ b < c1) then 1 else 0 := by
  have hb : blockCM (fun r c => ((r, c) : ℕ × ℕ)) r0 r1 c0 c1 =
      ((List.range' c0 (c1 - c0)).map fun c =>
        (List.range' r0 (r1 - r0)).map fun r => (r, c)).flatten := by
    simp [blockCM, List.range'_eq_map_range, List.map_map, Function.comp_def]
  have aux : ∀ (n s : ℕ),
      List.count (a, b)
        (((List.range' s n).map fun c =>
          (List.range' r0 (r1 - r0)).map fun r => (r, c)).flatten) =
        if (s ≤ b ∧ b < s + n) ∧ (r0 ≤ a ∧ a < r0 + (r1 - r0)) then 1
        else 0 := by
    intro n
    induction n with
    | zero =>
      intro s
      rw [if_neg (by omega)]
      simp
    | succ m ih =>
      intro s
      rw [List.range'_succ, List.map_cons, List.flatten_cons,
        List.count_append, count_pair_col, ih]
      split_ifs <;> omega
  rw [hb, aux]
  exact if_congr (by omega) rfl rfl

theorem Region.count_cells (R : Region) (a b : ℕ) :
    List.count (a, b) R.cells = if R.containsB a b then 1 else 0 := by
  rw [Region.cells, count_blockRM_pair]
  simp only [Region.containsB, decide_eq_true_eq]

theorem count_regions_cells (rs : List Region) (a b : ℕ) :
    List.count (a, b) ((rs.map Region.cells).flatten) =
      List.countP (fun R => R.containsB a b) rs := by
  induction rs with
  | nil => simp
  | cons R rs ih =>
    rw [List.map_cons, List.flatten_cons, List.count_append, ih,
      List.countP_cons, Region.count_cells]
    omega

theorem cells_of_guard (P : Prop) [Decidable P] (R : Region)
    (h : ¬ P → R.cells = []) :
    ((((if P then [R] else []) : List Region).map Region.cells).flatten) =
      R.cells := by
  split
  · simp
  · next hp => simp [h hp]

theorem mem_ite_list {P : Prop} [Decidable P] {R x : Region}
    (h : R ∈ (if P then [x] else ([] : List Region))) : P ∧ R = x := by
  split at h
  · next hp => exact ⟨hp, by simpa using h⟩
  · simp at h

theorem regions_cells_eq_flattenLR (H W k : ℕ) :
    (((regionsLR H W k).map Region.cells).flatten) =
      flattenLR (fun r c => (r, c)) H W k := by
  simp only [regionsLR, flattenLR, List.map_append, List.flatten_append,
    List.map_cons, List.map_nil, List.flatten_cons, List.flatten_nil,
    List.append_nil]
  rw [cells_of_guard _ _ (fun hn => blockRM_nil _ _ _ _ _ (by dsimp only; omega)),
    cells_of_guard _ _ (fun hn => blockRM_nil _ _ _ _ _ (by dsimp only; omega)),
    cells_of_guard _ _ (fun hn => blockRM_nil _ _ _ _ _ (by dsimp only; omega)),
    cells_of_guard _ _ (fun hn => blockRM_nil _ _ _ _ _ (by dsimp only; omega)),
    cells_of_guard _ _ (fun hn => blockRM_nil _ _ _ _ _ (by dsimp only; omega)),
    cells_of_guard _ _ (fun hn => blockRM_nil _ _ _ _ _ (by dsimp only; omega)),
    cells_of_guard _ _ (fun hn => blockRM_nil _ _ _ _ _ (by dsimp only; omega)),
    cells_of_guard _ _ (fun hn => blockRM_nil _ _ _ _ _ (by dsimp only; omega))]
  simp only [Region.cells]

theorem count_flattenLR_pair (H W k a b : ℕ) (hkH : k ≤ H) (hkW : k ≤ W)
    (ha : a < H) (hb : b < W) :
    List.count (a, b) (flattenLR (fun r c => (r, c)) H W k) = 1 := by
  simp only [flattenLR, List.count_append, count_blockRM_pair]
  split_ifs <;> omega

theorem count_flattenUD_pair (H W k a b : ℕ) (hkH : k ≤ H) (hkW : k ≤ W)
    (ha : a < H) (hb : b < W) :
    List.count (a, b) (flattenUD (fun r c => (r, c)) H W k) = 1 := by
  simp only [flattenUD, List.count_append, count_blockCM_pair]
  split_ifs <;> omega

theorem length_flattenLR (g : ℕ → ℕ → α) (H W k : ℕ)
    (hkH : k ≤ H) (hkW : k ≤ W) :
    (flattenLR g H W k).length = H * W := by
  simp only [flattenLR, List.length_append, length_blockRM]
  have h1 : (H - k) / 2 + k ≤ H := by omega
  have h2 : (W - k) / 2 + k ≤ W := by omega
  generalize (H - k) / 2 = hc at h1 ⊢
  generalize (W - k) / 2 = wc at h2 ⊢
  obtain ⟨A, hA⟩ : ∃ A, H = hc + k + A := ⟨H - (hc + k), by omega⟩
  obtain ⟨D, hD⟩ : ∃ D, W = wc + k + D := ⟨W - (wc + k), by omega⟩
  subst hA hD
  simp only [Nat.sub_zero]
  rw [show hc + k - hc = k from by omega, show wc + k - wc = k from by omega,
    show hc + k + A - (hc + k) = A from by omega,
    show wc + k + D - (wc + k) = D from by omega]
  ring

theorem length_flattenUD (g : ℕ → ℕ → α) (H W k : ℕ)
    (hkH : k ≤ H) (hkW : k ≤ W) :
    (flattenUD g H W k).length = H * W := by
  simp only [flattenUD, List.length_append, length_blockCM]
  have h1 : (H - k) / 2 + k ≤ H := by omega
  have h2 : (W - k) / 2 + k ≤ W := by omega
  generalize (H - k) / 2 = hc at h1 ⊢
  generalize (W - k) / 2 = wc at h2 ⊢
  obtain ⟨A, hA⟩ : ∃ A, H = hc + k + A := ⟨H - (hc + k), by omega⟩
  obtain ⟨D, hD⟩ : ∃ D, W = wc + k + D := ⟨W - (wc + k), by omega⟩
  subst hA hD
  simp only [Nat.sub_zero]
  rw [show hc + k - hc = k from by omega, show wc + k - wc = k from by omega,
    show hc + k + A - (hc + k) = A from by omega,
    show wc + k + D - (wc + k) = D from by omega]
  ring

/-- C2: for every valid configuration `1 ≤ kernel ≤ min(H, W)`, each grid
cell lies in exactly one region included by the partitioner, every
included region is non-degenerate, and its cells lie inside the grid —
the included regions tile the `H × W` grid with no overlaps and no
gaps. -/
theorem partition_covers_each_cell_exactly_once (H W k r c : ℕ)
    (hk1 : 1 ≤ k) (hkH : k ≤ H) (hkW : k ≤ W) (hr : r < H) (hc : c < W) :
    List.countP (fun R => R.containsB r c) (regionsLR H W k) = 1 ∧
      ∀ R ∈ regionsLR H W k,
        R.r1 ≤ H ∧ R.c1 ≤ W ∧ R.r0 < R.r1 ∧ R.c0 < R.c1 := by
  constructor
  · rw [← count_regions_cells, regions_cells_eq_flattenLR]
    exact count_flattenLR_pair H W k r c hkH hkW hr hc
  · intro R hR
    simp only [regionsLR, List.mem_append, List.mem_singleton] at hR
    rcases hR with ((((((((h | h) | h) | h) | h) | h) | h) | h) | h)
    · obtain ⟨hp, rfl⟩ := mem_ite_list h
      refine ⟨?_, ?_, ?_, ?_⟩ <;> dsimp only <;> omega
    · obtain ⟨hp, rfl⟩ := mem_ite_list h
      refine ⟨?_, ?_, ?_, ?_⟩ <;> dsimp only <;> omega
    · obtain ⟨hp, rfl⟩ := mem_ite_list h
      refine ⟨?_, ?_, ?_, ?_⟩ <;> dsimp only <;> omega
    · obtain ⟨hp, rfl⟩ := mem_ite_list h
      refine ⟨?_, ?_, ?_, ?_⟩ <;> dsimp only <;> omega
    · subst h
      refine ⟨?_, ?_, ?_, ?_⟩ <;> dsimp only <;> omega
    · obtain ⟨hp, rfl⟩ := mem_ite_list h
      refine ⟨?_, ?_, ?_, ?_⟩ <;> dsimp only <;> omega
    · obtain ⟨hp, rfl⟩ := mem_ite_list h
      refine ⟨?_, ?_, ?_, ?_⟩ <;> dsimp only <;> omega
    · obtain ⟨hp, rfl⟩ := mem_ite_list h
      refine ⟨?_, ?_, ?_, ?_⟩ <;> dsimp only <;> omega
    · obtain ⟨hp, rfl⟩ := mem_ite_list h
      refine ⟨?_, ?_, ?_, ?_⟩ <;> dsimp only <;> omega

/-- Witness for C2 at `H = W = 9`, `kernel = 4`, cell `(5, 7)`. -/
theorem partition_covers_each_cell_exactly_once_witness :
    List.countP (fun R => R.containsB 5 7) (regionsLR 9 9 4) = 1 :=
  (partition_covers_each_cell_exactly_once 9 9 4 5 7 (by decide) (by decide)
    (by decide) (by decide) (by decide)).1

/-- C9: whenever `rearrange_center_blocks` succeeds on the identity-tagged
grid, each of the four output sequences has length exactly `H * W` and
contains every cell tag exactly once — the LR and UD flattenings (and
their reversals) are bijections from grid cells onto sequence
positions. -/
theorem flatten_sequences_are_permutations (H W k : ℕ)
    (out : RearOut (ℕ × ℕ))
    (h : rearrange_center_blocks idGrid H W k = some out) :
    (out.lr.length = H * W ∧ out.ud.length = H * W ∧
      out.rl.length = H * W ∧ out.du.length = H * W) ∧
    ∀ r c, r < H → c < W →
      List.count (r, c) out.lr = 1 ∧ List.count (r, c) out.ud = 1 ∧
        List.count (r, c) out.rl = 1 ∧ List.count (r, c) out.du = 1 := by
  simp only [rearrange_center_blocks] at h
  split at h
  · next hcond =>
    cases h
    have hkH : k ≤ H := by omega
    have hkW : k ≤ W := by omega
    refine ⟨⟨length_flattenLR _ _ _ _ hkH hkW,
             length_flattenUD _ _ _ _ hkH hkW, ?_, ?_⟩, ?_⟩
    · rw [List.length_reverse]
      exact length_flattenLR _ _ _ _ hkH hkW
    · rw [List.length_reverse]
      exact length_flattenUD _ _ _ _ hkH hkW
    · intro r c hr hc
      refine ⟨count_flattenLR_pair H W k r c hkH hkW hr hc,
              count_flattenUD_pair H W k r c hkH hkW hr hc, ?_, ?_⟩
      · rw [List.count_reverse]
        exact count_flattenLR_pair H W k r c hkH hkW hr hc
      · rw [List.count_reverse]
        exact count_flattenUD_pair H W k r c hkH hkW hr hc
  · cases h


/-- Witness for C9 at `H = W = 4`, `kernel = 2`. -/
theorem flatten_sequences_are_permutations_witness :
    rearrange_center_blocks idGrid 4 4 2 = some rearOutPairs442 ∧
      rearOutPairs442.lr.length = 16 ∧
      List.count (1, 2) rearOutPairs442.ud = 1 :=
  ⟨by decide,
   (flatten_sequences_are_permutations 4 4 2 rearOutPairs442 (by decide)).1.1,
   ((flatten_sequences_are_permutations 4 4 2 rearOutPairs442
      (by decide)).2 1 2 (by decide) (by decide)).2.1⟩

/-! ## Facts about the recoverers -/

theorem reshapeRows_isSome {l : List α} {h w : ℕ} :
    (reshapeRows l h w).isSome ↔ l.length = h * w := by
  unfold reshapeRows
  split <;> simp_all

theorem reshapeRows_length {l : List α} {h w : ℕ} {o : List (List α)}
    (ho : reshapeRows l h w = some o) : l.length = h * w := by
  unfold reshapeRows at ho
  split at ho
  · assumption
  · cases ho

theorem reshapeRows_rows_length {l : List α} {h w : ℕ} {o : List (List α)}
    (ho : reshapeRows l h w = some o) :
    o.length = h ∧ ∀ row ∈ o, row.length = w := by
  unfold reshapeRows at ho
  split at ho
  · next hlen =>
    cases ho
    refine ⟨by simp, ?_⟩
    intro row hrow
    rcases List.mem_map.mp hrow with ⟨i, hi, rfl⟩
    have hi' : i < h := List.mem_range.mp hi
    have hmul : (i + 1) * w ≤ h * w := Nat.mul_le_mul_right w hi'
    rw [Nat.add_mul, Nat.one_mul] at hmul
    simp only [List.length_take, List.length_drop, hlen]
    omega
  · cases ho


/-- Witness for C8 at `H = W = 4`, `kernel = 2` on the §8 grid. -/
theorem reversal_of_forward_sequences_witness :
    rearrange_center_blocks tagGrid4 4 4 2 = some rearOut442 ∧
      rearOut442.rl = rearOut442.lr.reverse ∧
      rearOut442.rl[3]? = rearOut442.lr[12]? :=
  ⟨by decide,
   (reversal_of_forward_sequences tagGrid4 4 4 2 rearOut442 (by decide)).1,
   (reversal_of_forward_sequences tagGrid4 4 4 2 rearOut442 (by decide)).2.2
     3 (by decide)⟩

set_option maxHeartbeats 1600000 in
theorem recover_window_lr_isSome (x : List α) (k : ℕ) :
    (recover_window_lr x k).isSome ↔ x.length = (2 * k) ^ 2 := by
  unfold recover_window_lr
  split
  · next hpar =>
    obtain ⟨s, rfl⟩ : ∃ s, k = 2 * s := ⟨k / 2, by omega⟩
    dsimp only
    simp only [show 2 * s / 2 = s from by omega, Option.bind_eq_bind]
    have epow : (2 * (2 * s)) ^ 2 = 16 * (s * s) := by ring
    have eA : s * (s * 2) = 2 * (s * s) := by ring
    have eB : s * 2 * s = 2 * (s * s) := by ring
    have eC : s * 2 * (s * 2) = 4 * (s * s) := by ring
    rw [Option.isSome_iff_exists]
    simp only [Option.bind_eq_some]
    constructor
    · rintro ⟨y, a1, h1, a2, h2, a3, h3, a4, h4, a5, h5, a6, h6, a7, h7,
        a8, h8, a9, h9, -⟩
      have l9 := reshapeRows_length h9
      simp only [List.length_drop] at l9
      rw [epow]
      omega
    · intro hlen
      rw [epow] at hlen
      obtain ⟨a1, h1⟩ := Option.isSome_iff_exists.mp
        (reshapeRows_isSome.mpr (show (seg x 0 (s * s)).length = s * s by
          simp only [seg, List.length_take, List.length_drop]; omega))
      obtain ⟨a2, h2⟩ := Option.isSome_iff_exists.mp
        (reshapeRows_isSome.mpr
          (show (seg x (s * s) (s * s + s * s * 2)).length = s * (s * 2) by
          simp only [seg, List.length_take, List.length_drop]; omega))
      obtain ⟨a3, h3⟩ := Option.isSome_iff_exists.mp
        (reshapeRows_isSome.mpr
          (show (seg x (s * s + s * s * 2) (2 * (s * s) + s * s * 2)).length
              = s * s by
          simp only [seg, List.length_take, List.length_drop]; omega))
      obtain ⟨a4, h4⟩ := Option.isSome_iff_exists.mp
        (reshapeRows_isSome.mpr
          (show (seg x (2 * (s * s) + s * s * 2)
              (2 * (s * s) + 2 * (s * s * 2))).length = s * 2 * s by
          simp only [seg, List.length_take, List.length_drop]; omega))
      obtain ⟨a5, h5⟩ := Option.isSome_iff_exists.mp
        (reshapeRows_isSome.mpr
          (show (seg x (2 * (s * s) + 2 * (s * s * 2))
              (2 * (s * s) + 2 * (s * s * 2) + s * s * 4)).length
              = s * 2 * (s * 2) by
          simp only [seg, List.length_take, List.length_drop]; omega))
      obtain ⟨a6, h6⟩ := Option.isSome_iff_exists.mp
        (reshapeRows_isSome.mpr
          (show (seg x (2 * (s * s) + 2 * (s * s * 2) + s * s * 4)
              (2 * (s * s) + 3 * (s * s * 2) + s * s * 4)).length
              = s * 2 * s by
          simp only [seg, List.length_take, List.length_drop]; omega))
      obtain ⟨a7, h7⟩ := Option.isSome_iff_exists.mp
        (reshapeRows_isSome.mpr
          (show (seg x (2 * (s * s) + 3 * (s * s * 2) + s * s * 4)
              (3 * (s * s) + 3 * (s * s * 2) + s * s * 4)).length = s * s by
          simp only [seg, List.length_take, List.length_drop]; omega))
      obtain ⟨a8, h8⟩ := Option.isSome_iff_exists.mp
        (reshapeRows_isSome.mpr
          (show (seg x (3 * (s * s) + 3 * (s * s * 2) + s * s * 4)
              (3 * (s * s) + 4 * (s * s * 2) + s * s * 4)).length
              = s * (s * 2) by
          simp only [seg, List.length_take, List.length_drop]; omega))
      obtain ⟨a9, h9⟩ := Option.isSome_iff_exists.mp
        (reshapeRows_isSome.mpr
          (show (x.drop (3 * (s * s) + 4 * (s * s * 2) + s * s * 4)).length
              = s * s by
          simp only [List.length_drop]; omega))
      exact ⟨_, a1, h1, a2, h2, a3, h3, a4, h4, a5, h5, a6, h6, a7, h7,
        a8, h8, a9, h9, rfl⟩
  · next hpar =>
    obtain ⟨s, rfl⟩ : ∃ s, k = 2 * s + 1 := ⟨k / 2, by omega⟩
    dsimp only
    simp only [show (2 * s + 1) / 2 = s from by omega, Option.bind_eq_bind]
    have epow : (2 * (2 * s + 1)) ^ 2 = 16 * (s * s) + 16 * s + 4 := by ring
    have f1 : s * (s + 1) = s * s + s := by ring
    have f2 : s * (2 * s + 1) = 2 * (s * s) + s := by ring
    have f3 : (2 * s + 1) * s = 2 * (s * s) + s := by ring
    have f4 : (s + 1) * s = s * s + s := by ring
    have f5 : (s + 1) * (2 * s + 1) = 2 * (s * s) + 3 * s + 1 := by ring
    have f6 : (2 * s + 1) * (s + 1) = 2 * (s * s) + 3 * s + 1 := by ring
    have f7 : (2 * s + 1) * (2 * s + 1) = 4 * (s * s) + 4 * s + 1 := by ring
    have f8 : (s + 1) * (s + 1) = s * s + 2 * s + 1 := by ring
    rw [Option.isSome_iff_exists]
    simp only [Option.bind_eq_some]
    constructor
    · rintro ⟨y, a1, h1, a2, h2, a3, h3, a4, h4, a5, h5, a6, h6, a7, h7,
        a8, h8, a9, h9, -⟩
      have l9 := reshapeRows_length h9
      simp only [List.length_drop] at l9
      rw [epow]
      omega
    · intro hlen
      rw [epow] at hlen
      obtain ⟨a1, h1⟩ := Option.isSome_iff_exists.mp
        (reshapeRows_isSome.mpr (show (seg x 0 (s * s)).length = s * s by
          simp only [seg, List.length_take, List.length_drop]; omega))
      obtain ⟨a2, h2⟩ := Option.isSome_iff_exists.mp
        (reshapeRows_isSome.mpr
          (show (seg x (s * s) (s * s + s * (2 * s + 1))).length
              = s * (2 * s + 1) by
          simp only [seg, List.length_take, List.length_drop]; omega))
      obtain ⟨a3, h3⟩ := Option.isSome_iff_exists.mp
        (reshapeRows_isSome.mpr
          (show (seg x (s * s + s * (2 * s + 1))
              (s * s + s * (s + 1) + s * (2 * s + 1))).length
              = s * (s + 1) by
          simp only [seg, List.length_take, List.length_drop]; omega))
      obtain ⟨a4, h4⟩ := Option.isSome_iff_exists.mp
        (reshapeRows_isSome.mpr
          (show (seg x (s * s + s * (s + 1) + s * (2 * s + 1))
              (s * s + s * (s + 1) + 2 * (s * (2 * s + 1)))).length
              = (2 * s + 1) * s by
          simp only [seg, List.length_take, List.length_drop]; omega))
      obtain ⟨a5, h5⟩ := Option.isSome_iff_exists.mp
        (reshapeRows_isSome.mpr
          (show (seg x (s * s + s * (s + 1) + 2 * (s * (2 * s + 1)))
              (s * s + s * (s + 1) + 2 * (s * (2 * s + 1)) +
                (2 * s + 1) * (2 * s + 1))).length
              = (2 * s + 1) * (2 * s + 1) by
          simp only [seg, List.length_take, List.length_drop]; omega))
      obtain ⟨a6, h6⟩ := Option.isSome_iff_exists.mp
        (reshapeRows_isSome.mpr
          (show (seg x (s * s + s * (s + 1) + 2 * (s * (2 * s + 1)) +
                (2 * s + 1) * (2 * s + 1))
              (s * s + s * (s + 1) + 2 * (s * (2 * s + 1)) +
                (s + 1) * (2 * s + 1) + (2 * s + 1) * (2 * s + 1))).length
              = (2 * s + 1) * (s + 1) by
          simp only [seg, List.length_take, List.length_drop]; omega))
      obtain ⟨a7, h7⟩ := Option.isSome_iff_exists.mp
        (reshapeRows_isSome.mpr
          (show (seg x (s * s + s * (s + 1) + 2 * (s * (2 * s + 1)) +
                (s + 1) * (2 * s + 1) + (2 * s + 1) * (2 * s + 1))
              (s * s + 2 * (s * (s + 1)) + 2 * (s * (2 * s + 1)) +
                (s + 1) * (2 * s + 1) + (2 * s + 1) * (2 * s + 1))).length
              = (s + 1) * s by
          simp only [seg, List.length_take, List.length_drop]; omega))
      obtain ⟨a8, h8⟩ := Option.isSome_iff_exists.mp
        (reshapeRows_isSome.mpr
          (show (seg x (s * s + 2 * (s * (s + 1)) + 2 * (s * (2 * s + 1)) +
                (s + 1) * (2 * s + 1) + (2 * s + 1) * (2 * s + 1))
              (s * s + 2 * (s * (s + 1)) + 2 * (s * (2 * s + 1)) +
                2 * ((s + 1) * (2 * s + 1)) +
                (2 * s + 1) * (2 * s + 1))).length
              = (s + 1) * (2 * s + 1) by
          simp only [seg, List.length_take, List.length_drop]; omega))
      obtain ⟨a9, h9⟩ := Option.isSome_iff_exists.mp
        (reshapeRows_isSome.mpr
          (show (x.drop (s * s + 2 * (s * (s + 1)) + 2 * (s * (2 * s + 1)) +
                2 * ((s + 1) * (2 * s + 1)) +
                (2 * s + 1) * (2 * s + 1))).length
              = (s + 1) * (s + 1) by
          simp only [List.length_drop]; omega))
      exact ⟨_, a1, h1, a2, h2, a3, h3, a4, h4, a5, h5, a6, h6, a7, h7,
        a8, h8, a9, h9, rfl⟩

set_option maxHeartbeats 1600000 in
theorem recover_window_ud_isSome (x : List α) (k : ℕ) :
    (recover_window_ud x k).isSome ↔ x.length = (2 * k) ^ 2 := by
  unfold recover_window_ud
  split
  · next hpar =>
    obtain ⟨s, rfl⟩ : ∃ s, k = 2 * s := ⟨k / 2, by omega⟩
    dsimp only
    simp only [show 2 * s / 2 = s from by omega, Option.bind_eq_bind]
    have epow : (2 * (2 * s)) ^ 2 = 16 * (s * s) := by ring
    have eA : s * (s * 2) = 2 * (s * s) := by ring
    have eB : s * 2 * s = 2 * (s * s) := by ring
    have eC : s * 2 * (s * 2) = 4 * (s * s) := by ring
    rw [Option.isSome_iff_exists]
    simp only [Option.bind_eq_some]
    constructor
    · rintro ⟨y, a1, h1, a2, h2, a3, h3, a4, h4, a5, h5, a6, h6, a7, h7,
        a8, h8, a9, h9, -⟩
      have l9 := reshapeRows_length h9
      simp only [List.length_drop] at l9
      rw [epow]
      omega
    · intro hlen
      rw [epow] at hlen
      obtain ⟨a1, h1⟩ := Option.isSome_iff_exists.mp
        (reshapeRows_isSome.mpr (show (seg x 0 (s * s)).length = s * s by
          simp only [seg, List.length_take, List.length_drop]; omega))
      obtain ⟨a2, h2⟩ := Option.isSome_iff_exists.mp
        (reshapeRows_isSome.mpr
          (show (seg x (s * s) (s * s + s * s * 2)).length = s * 2 * s by
          simp only [seg, List.length_take, List.length_drop]; omega))
      obtain ⟨a3, h3⟩ := Option.isSome_iff_exists.mp
        (reshapeRows_isSome.mpr
          (show (seg x (s * s + s * s * 2) (2 * (s * s) + s * s * 2)).length
              = s * s by
          simp only [seg, List.length_take, List.length_drop]; omega))
      obtain ⟨a4, h4⟩ := Option.isSome_iff_exists.mp
        (reshapeRows_isSome.mpr
          (show (seg x (2 * (s * s) + s * s * 2)
              (2 * (s * s) + 2 * (s * s * 2))).length = s * (s * 2) by
          simp only [seg, List.length_take, List.length_drop]; omega))
      obtain ⟨a5, h5⟩ := Option.isSome_iff_exists.mp
        (reshapeRows_isSome.mpr
          (show (seg x (2 * (s * s) + 2 * (s * s * 2))
              (2 * (s * s) + 2 * (s * s * 2) + s * s * 4)).length
              = s * 2 * (s * 2) by
          simp only [seg, List.length_take, List.length_drop]; omega))
      obtain ⟨a6, h6⟩ := Option.isSome_iff_exists.mp
        (reshapeRows_isSome.mpr
          (show (seg x (2 * (s * s) + 2 * (s * s * 2) + s * s * 4)
              (2 * (s * s) + 3 * (s * s * 2) + s * s * 4)).length
              = s * (s * 2) by
          simp only [seg, List.length_take, List.length_drop]; omega))
      obtain ⟨a7, h7⟩ := Option.isSome_iff_exists.mp
        (reshapeRows_isSome.mpr
          (show (seg x (2 * (s * s) + 3 * (s * s * 2) + s * s * 4)
              (3 * (s * s) + 3 * (s * s * 2) + s * s * 4)).length = s * s by
          simp only [seg, List.length_take, List.length_drop]; omega))
      obtain ⟨a8, h8⟩ := Option.isSome_iff_exists.mp
        (reshapeRows_isSome.mpr
          (show (seg x (3 * (s * s) + 3 * (s * s * 2) + s * s * 4)
              (3 * (s * s) + 4 * (s * s * 2) + s * s * 4)).length
              = s * 2 * s by
          simp only [seg, List.length_take, List.length_drop]; omega))
      obtain ⟨a9, h9⟩ := Option.isSome_iff_exists.mp
        (reshapeRows_isSome.mpr
          (show (x.drop (3 * (s * s) + 4 * (s * s * 2) + s * s * 4)).length
              = s * s by
          simp only [List.length_drop]; omega))
      exact ⟨_, a1, h1, a2, h2, a3, h3, a4, h4, a5, h5, a6, h6, a7, h7,
        a8, h8, a9, h9, rfl⟩
  · next hpar =>
    obtain ⟨s, rfl⟩ : ∃ s, k = 2 * s + 1 := ⟨k / 2, by omega⟩
    dsimp only
    simp only [show (2 * s + 1) / 2 = s from by omega, Option.bind_eq_bind]
    have epow : (2 * (2 * s + 1)) ^ 2 = 16 * (s * s) + 16 * s + 4 := by ring
    have f1 : s * (s + 1) = s * s + s := by ring
    have f2 : s * (2 * s + 1) = 2 * (s * s) + s := by ring
    have f3 : (2 * s + 1) * s = 2 * (s * s) + s := by ring
    have f4 : (s + 1) * s = s * s + s := by ring
    have f5 : (s + 1) * (2 * s + 1) = 2 * (s * s) + 3 * s + 1 := by ring
    have f6 : (2 * s + 1) * (s + 1) = 2 * (s * s) + 3 * s + 1 := by ring
    have f7 : (2 * s + 1) * (2 * s + 1) = 4 * (s * s) + 4 * s + 1 := by ring
    have f8 : (s + 1) * (s + 1) = s * s + 2 * s + 1 := by ring
    rw [Option.isSome_iff_exists]
    simp only [Option.bind_eq_some]
    constructor
    · rintro ⟨y, a1, h1, a2, h2, a3, h3, a4, h4, a5, h5, a6, h6, a7, h7,
        a8, h8, a9, h9, -⟩
      have l9 := reshapeRows_length h9
      simp only [List.length_drop] at l9
      rw [epow]
      omega
    · intro hlen
      rw [epow] at hlen
      obtain ⟨a1, h1⟩ := Option.isSome_iff_exists.mp
        (reshapeRows_isSome.mpr (show (seg x 0 (s * s)).length = s * s by
          simp only [seg, List.length_take, List.length_drop]; omega))
      obtain ⟨a2, h2⟩ := Option.isSome_iff_exists.mp
        (reshapeRows_isSome.mpr
          (show (seg x (s * s) (s * s + s * (2 * s + 1))).length
              = (2 * s + 1) * s by
          simp only [seg, List.length_take, List.length_drop]; omega))
      obtain ⟨a3, h3⟩ := Option.isSome_iff_exists.mp
        (reshapeRows_isSome.mpr
          (show (seg x (s * s + s * (2 * s + 1))
              (s * s + s * (s + 1) + s * (2 * s + 1))).length
              = (s + 1) * s by
          simp only [seg, List.length_take, List.length_drop]; omega))
      obtain ⟨a4, h4⟩ := Option.isSome_iff_exists.mp
        (reshapeRows_isSome.mpr
          (show (seg x (s * s + s * (s + 1) + s * (2 * s + 1))
              (s * s + s * (s + 1) + 2 * (s * (2 * s + 1)))).length
              = s * (2 * s + 1) by
          simp only [seg, List.length_take, List.length_drop]; omega))
      obtain ⟨a5, h5⟩ := Option.isSome_iff_exists.mp
        (reshapeRows_isSome.mpr
          (show (seg x (s * s + s * (s + 1) + 2 * (s * (2 * s + 1)))
              (s * s + s * (s + 1) + 2 * (s * (2 * s + 1)) +
                (2 * s + 1) * (2 * s + 1))).length
              = (2 * s + 1) * (2 * s + 1) by
          simp only [seg, List.length_take, List.length_drop]; omega))
      obtain ⟨a6, h6⟩ := Option.isSome_iff_exists.mp
        (reshapeRows_isSome.mpr
          (show (seg x (s * s + s * (s + 1) + 2 * (s * (2 * s + 1)) +
                (2 * s + 1) * (2 * s + 1))
              (s * s + s * (s + 1) + 2 * (s * (2 * s + 1)) +
                (s + 1) * (2 * s + 1) + (2 * s + 1) * (2 * s + 1))).length
              = (s + 1) * (2 * s + 1) by
          simp only [seg, List.length_take, List.length_drop]; omega))
      obtain ⟨a7, h7⟩ := Option.isSome_iff_exists.mp
        (reshapeRows_isSome.mpr
          (show (seg x (s * s + s * (s + 1) + 2 * (s * (2 * s + 1)) +
                (s + 1) * (2 * s + 1) + (2 * s + 1) * (2 * s + 1))
              (s * s + 2 * (s * (s + 1)) + 2 * (s * (2 * s + 1)) +
                (s + 1) * (2 * s + 1) + (2 * s + 1) * (2 * s + 1))).length
              = s * (s + 1) by
          simp only [seg, List.length_take, List.length_drop]; omega))
      obtain ⟨a8, h8⟩ := Option.isSome_iff_exists.mp
        (reshapeRows_isSome.mpr
          (show (seg x (s * s + 2 * (s * (s + 1)) + 2 * (s * (2 * s + 1)) +
                (s + 1) * (2 * s + 1) + (2 * s + 1) * (2 * s + 1))
              (s * s + 2 * (s * (s + 1)) + 2 * (s * (2 * s + 1)) +
                2 * ((s + 1) * (2 * s + 1)) +
                (2 * s + 1) * (2 * s + 1))).length
              = (2 * s + 1) * (s + 1) by
          simp only [seg, List.length_take, List.length_drop]; omega))
      obtain ⟨a9, h9⟩ := Option.isSome_iff_exists.mp
        (reshapeRows_isSome.mpr
          (show (x.drop (s * s + 2 * (s * (s + 1)) + 2 * (s * (2 * s + 1)) +
                2 * ((s + 1) * (2 * s + 1)) +
                (2 * s + 1) * (2 * s + 1))).length
              = (s + 1) * (s + 1) by
          simp only [List.length_drop]; omega))
      exact ⟨_, a1, h1, a2, h2, a3, h3, a4, h4, a5, h5, a6, h6, a7, h7,
        a8, h8, a9, h9, rfl⟩

theorem exists_of_mem_zipWith {γ δ : Type} {f : β → γ → δ}
    {l1 : List β} {l2 : List γ} {d : δ}
    (h : d ∈ List.zipWith f l1 l2) :
    ∃ a ∈ l1, ∃ b ∈ l2, d = f a b := by
  induction l1 generalizing l2 with
  | nil => simp at h
  | cons a l ih =>
    cases l2 with
    | nil => simp at h
    | cons b m =>
      rw [List.zipWith_cons_cons, List.mem_cons] at h
      rcases h with rfl | h
      · exact ⟨a, by simp, b, by simp, rfl⟩
      · rcases ih h with ⟨a1, ha1, b1, hb1, rfl⟩
        exact ⟨a1, by simp [ha1], b1, by simp [hb1], rfl⟩

theorem mem_hcat3 {a b c : List (List α)} {row : List α}
    (h : row ∈ hcat3 a b c) :
    ∃ ra ∈ a, ∃ rb ∈ b, ∃ rc ∈ c, row = ra ++ rb ++ rc := by
  unfold hcat3 at h
  rcases exists_of_mem_zipWith h with ⟨rab, hab, rc, hrc, rfl⟩
  rcases exists_of_mem_zipWith hab with ⟨ra, hra, rb, hrb, rfl⟩
  exact ⟨ra, hra, rb, hrb, rc, hrc, rfl⟩

theorem length_hcat3 {a b c : List (List α)} :
    (hcat3 a b c).length = min (min a.length b.length) c.length := by
  simp [hcat3, List.length_zipWith]

theorem recover_window_lr_shape {x : List α} {k : ℕ} {y : List (List α)}
    (h : recover_window_lr x k = some y) :
    y.length = 2 * k ∧ ∀ row ∈ y, row.length = 2 * k := by
  unfold recover_window_lr at h
  split at h
  · next hpar =>
    obtain ⟨s, rfl⟩ : ∃ s, k = 2 * s := ⟨k / 2, by omega⟩
    dsimp only at h
    simp only [show 2 * s / 2 = s from by omega, Option.bind_eq_bind,
      Option.bind_eq_some] at h
    obtain ⟨a1, h1, a2, h2, a3, h3, a4, h4, a5, h5, a6, h6, a7, h7,
      a8, h8, a9, h9, hy⟩ := h
    cases hy
    obtain ⟨n1, w1⟩ := reshapeRows_rows_length h1
    obtain ⟨n2, w2⟩ := reshapeRows_rows_length h2
    obtain ⟨n3, w3⟩ := reshapeRows_rows_length h3
    obtain ⟨n4, w4⟩ := reshapeRows_rows_length h4
    obtain ⟨n5, w5⟩ := reshapeRows_rows_length h5
    obtain ⟨n6, w6⟩ := reshapeRows_rows_length h6
    obtain ⟨n7, w7⟩ := reshapeRows_rows_length h7
    obtain ⟨n8, w8⟩ := reshapeRows_rows_length h8
    obtain ⟨n9, w9⟩ := reshapeRows_rows_length h9
    constructor
    · simp only [List.length_append, length_hcat3, n1, n2, n3, n4, n5, n6,
        n7, n8, n9]
      omega
    · intro row hrow
      simp only [List.mem_append] at hrow
      rcases hrow with (hrow | hrow) | hrow
      · rcases mem_hcat3 hrow with ⟨ra, hra, rb, hrb, rc, hrc, rfl⟩
        have := w1 ra hra
        have := w2 rb hrb
        have := w3 rc hrc
        simp only [List.length_append]
        omega
      · rcases mem_hcat3 hrow with ⟨ra, hra, rb, hrb, rc, hrc, rfl⟩
        have := w4 ra hra
        have := w5 rb hrb
        have := w6 rc hrc
        simp only [List.length_append]
        omega
      · rcases mem_hcat3 hrow with ⟨ra, hra, rb, hrb, rc, hrc, rfl⟩
        have := w7 ra hra
        have := w8 rb hrb
        have := w9 rc hrc
        simp only [List.length_append]
        omega
  · next hpar =>
    obtain ⟨s, rfl⟩ : ∃ s, k = 2 * s + 1 := ⟨k / 2, by omega⟩
    dsimp only at h
    simp only [show (2 * s + 1) / 2 = s from by omega, Option.bind_eq_bind,
      Option.bind_eq_some] at h
    obtain ⟨a1, h1, a2, h2, a3, h3, a4, h4, a5, h5, a6, h6, a7, h7,
      a8, h8, a9, h9, hy⟩ := h
    cases hy
    obtain ⟨n1, w1⟩ := reshapeRows_rows_length h1
    obtain ⟨n2, w2⟩ := reshapeRows_rows_length h2
    obtain ⟨n3, w3⟩ := reshapeRows_rows_length h3
    obtain ⟨n4, w4⟩ := reshapeRows_rows_length h4
    obtain ⟨n5, w5⟩ := reshapeRows_rows_length h5
    obtain ⟨n6, w6⟩ := reshapeRows_rows_length h6
    obtain ⟨n7, w7⟩ := reshapeRows_rows_length h7
    obtain ⟨n8, w8⟩ := reshapeRows_rows_length h8
    obtain ⟨n9, w9⟩ := reshapeRows_rows_length h9
    constructor
    · simp only [List.length_append, length_hcat3, n1, n2, n3, n4, n5, n6,
        n7, n8, n9]
      omega
    · intro row hrow
      simp only [List.mem_append] at hrow
      rcases hrow with (hrow | hrow) | hrow
      · rcases mem_hcat3 hrow with ⟨ra, hra, rb, hrb, rc, hrc, rfl⟩
        have := w1 ra hra
        have := w2 rb hrb
        have := w3 rc hrc
        simp only [List.length_append]
        omega
      · rcases mem_hcat3 hrow with ⟨ra, hra, rb, hrb, rc, hrc, rfl⟩
        have := w4 ra hra
        have := w5 rb hrb
        have := w6 rc hrc
        simp only [List.length_append]
        omega
      · rcases mem_hcat3 hrow with ⟨ra, hra, rb, hrb, rc, hrc, rfl⟩
        have := w7 ra hra
        have := w8 rb hrb
        have := w9 rc hrc
        simp only [List.length_append]
        omega

theorem recover_window_ud_shape {x : List α} {k : ℕ} {y : List (List α)}
    (h : recover_window_ud x k = some y) :
    y.length = 2 * k ∧ ∀ row ∈ y, row.length = 2 * k := by
  unfold recover_window_ud at h
  split at h
  · next hpar =>
    obtain ⟨s, rfl⟩ : ∃ s, k = 2 * s := ⟨k / 2, by omega⟩
    dsimp only at h
    simp only [show 2 * s / 2 = s from by omega, Option.bind_eq_bind,
      Option.bind_eq_some] at h
    obtain ⟨a1, h1, a2, h2, a3, h3, a4, h4, a5, h5, a6, h6, a7, h7,
      a8, h8, a9, h9, hy⟩ := h
    cases hy
    obtain ⟨n1, w1⟩ := reshapeRows_rows_length h1
    obtain ⟨n2, w2⟩ := reshapeRows_rows_length h2
    obtain ⟨n3, w3⟩ := reshapeRows_rows_length h3
    obtain ⟨n4, w4⟩ := reshapeRows_rows_length h4
    obtain ⟨n5, w5⟩ := reshapeRows_rows_length h5
    obtain ⟨n6, w6⟩ := reshapeRows_rows_length h6
    obtain ⟨n7, w7⟩ := reshapeRows_rows_length h7
    obtain ⟨n8, w8⟩ := reshapeRows_rows_length h8
    obtain ⟨n9, w9⟩ := reshapeRows_rows_length h9
    constructor
    · simp only [List.length_append, length_hcat3, n1, n2, n3, n4, n5, n6,
        n7, n8, n9]
      omega
    · intro row hrow
      simp only [List.mem_append] at hrow
      rcases hrow with (hrow | hrow) | hrow
      · rcases mem_hcat3 hrow with ⟨ra, hra, rb, hrb, rc, hrc, rfl⟩
        have := w1 ra hra
        have := w4 rb hrb
        have := w7 rc hrc
        simp only [List.length_append]
        omega
      · rcases mem_hcat3 hrow with ⟨ra, hra, rb, hrb, rc, hrc, rfl⟩
        have := w2 ra hra
        have := w5 rb hrb
        have := w8 rc hrc
        simp only [List.length_append]
        omega
      · rcases mem_hcat3 hrow with ⟨ra, hra, rb, hrb, rc, hrc, rfl⟩
        have := w3 ra hra
        have := w6 rb hrb
        have := w9 rc hrc
        simp only [List.length_append]
        omega
  · next hpar =>
    obtain ⟨s, rfl⟩ : ∃ s, k = 2 * s + 1 := ⟨k / 2, by omega⟩
    dsimp only at h
    simp only [show (2 * s + 1) / 2 = s from by omega, Option.bind_eq_bind,
      Option.bind_eq_some] at h
    obtain ⟨a1, h1, a2, h2, a3, h3, a4, h4, a5, h5, a6, h6, a7, h7,
      a8, h8, a9, h9, hy⟩ := h
    cases hy
    obtain ⟨n1, w1⟩ := reshapeRows_rows_length h1
    obtain ⟨n2, w2⟩ := reshapeRows_rows_length h2
    obtain ⟨n3, w3⟩ := reshapeRows_rows_length h3
    obtain ⟨n4, w4⟩ := reshapeRows_rows_length h4
    obtain ⟨n5, w5⟩ := reshapeRows_rows_length h5
    obtain ⟨n6, w6⟩ := reshapeRows_rows_length h6
    obtain ⟨n7, w7⟩ := reshapeRows_rows_length h7
    obtain ⟨n8, w8⟩ := reshapeRows_rows_length h8
    obtain ⟨n9, w9⟩ := reshapeRows_rows_length h9
    constructor
    · simp only [List.length_append, length_hcat3, n1, n2, n3, n4, n5, n6,
        n7, n8, n9]
      omega
    · intro row hrow
      simp only [List.mem_append] at hrow
      rcases hrow with (hrow | hrow) | hrow
      · rcases mem_hcat3 hrow with ⟨ra, hra, rb, hrb, rc, hrc, rfl⟩
        have := w1 ra hra
        have := w4 rb hrb
        have := w7 rc hrc
        simp only [List.length_append]
        omega
      · rcases mem_hcat3 hrow with ⟨ra, hra, rb, hrb, rc, hrc, rfl⟩
        have := w2 ra hra
        have := w5 rb hrb
        have := w8 rc hrc
        simp only [List.length_append]
        omega
      · rcases mem_hcat3 hrow with ⟨ra, hra, rb, hrb, rc, hrc, rfl⟩
        have := w3 ra hra
        have := w6 rb hrb
        have := w9 rc hrc
        simp only [List.length_append]
        omega

/-- C10: the recoverer derives everything from `kernel` alone (it never
consults the original `H` and `W`): on four equal-length input sequences
of length `L` it succeeds iff `L = (2*kernel)^2`, its output grid always
has spatial shape exactly `(2*kernel, 2*kernel)`, and the caller
`C_SS2D.forward` always passes `kernel = H / 2`. -/
theorem recover_center_blocks_shape_from_kernel [Add α] (k L : ℕ)
    (lr ud rl du : List α) (hlr : lr.length = L) (hud : ud.length = L)
    (hrl : rl.length = L) (hdu : du.length = L) :
    ((recover_center_blocks lr ud rl du k).isSome ↔ L = (2 * k) ^ 2) ∧
      (∀ y, recover_center_blocks lr ud rl du k = some y →
        y.length = 2 * k ∧ ∀ row ∈ y, row.length = 2 * k) ∧
      (∀ H, C_SS2D_kernel H = H / 2) := by
  have hz1 : (List.zipWith (· + ·) lr rl.reverse).length = L := by
    simp [List.length_zipWith, hlr, hrl]
  have hz2 : (List.zipWith (· + ·) ud du.reverse).length = L := by
    simp [List.length_zipWith, hud, hdu]
  refine ⟨?_, ?_, fun _ => rfl⟩
  · unfold recover_center_blocks
    simp only [Option.bind_eq_bind]
    rw [Option.isSome_iff_exists]
    simp only [Option.bind_eq_some]
    constructor
    · rintro ⟨y, y1, h1, y2, h2, -⟩
      have hs : (recover_window_lr (List.zipWith (· + ·) lr rl.reverse)
          k).isSome := by
        rw [h1]
        rfl
      have := (recover_window_lr_isSome _ k).mp hs
      rw [hz1] at this
      exact this
    · intro hL
      obtain ⟨y1, hy1⟩ := Option.isSome_iff_exists.mp
        ((recover_window_lr_isSome _ k).mpr (by rw [hz1, hL]))
      obtain ⟨y2, hy2⟩ := Option.isSome_iff_exists.mp
        ((recover_window_ud_isSome _ k).mpr (by rw [hz2, hL]))
      exact ⟨_, y1, hy1, y2, hy2, rfl⟩
  · intro y hy
    unfold recover_center_blocks at hy
    simp only [Option.bind_eq_bind, Option.bind_eq_some] at hy
    obtain ⟨y1, h1, y2, h2, hy⟩ := hy
    cases hy
    obtain ⟨n1, w1⟩ := recover_window_lr_shape h1
    obtain ⟨n2, w2⟩ := recover_window_ud_shape h2
    constructor
    · simp [List.length_zipWith, n1, n2]
    · intro row hrow
      rcases exists_of_mem_zipWith hrow with ⟨r1, hr1, r2, hr2, rfl⟩
      have := w1 r1 hr1
      have := w2 r2 hr2
      simp only [List.length_zipWith]
      omega

/-- Witness for C10 at `kernel = 1`, `L = 4`. -/
theorem recover_center_blocks_shape_from_kernel_witness :
    (recover_center_blocks (List.replicate 4 (0 : ℕ)) (List.replicate 4 0)
        (List.replicate 4 0) (List.replicate 4 0) 1).isSome ↔
      4 = (2 * 1) ^ 2 :=
  (recover_center_blocks_shape_from_kernel 1 4 (List.replicate 4 0)
    (List.replicate 4 0) (List.replicate 4 0) (List.replicate 4 0)
    (by decide) (by decide) (by decide) (by decide)).1

theorem coverList_eq_range' (lens : List ℕ) :
    ∀ s, coverList s lens = List.range' s lens.sum := by
  induction lens with
  | nil =>
    intro s
    simp [coverList]
  | cons l ls ih =>
    intro s
    rw [coverList, ih, List.sum_cons]
    have h := List.range'_append s l ls.sum 1
    rw [Nat.one_mul] at h
    rw [show l + ls.sum = ls.sum + l from Nat.add_comm _ _]
    exact h

theorem sum_segLensLR (k : ℕ) : (segLensLR k).sum = (2 * k) ^ 2 := by
  unfold segLensLR
  split
  · next hpar =>
    obtain ⟨s, rfl⟩ : ∃ s, k = 2 * s := ⟨k / 2, by omega⟩
    simp only [show 2 * s / 2 = s from by omega, List.sum_cons, List.sum_nil]
    ring
  · next hpar =>
    obtain ⟨s, rfl⟩ : ∃ s, k = 2 * s + 1 := ⟨k / 2, by omega⟩
    simp only [show (2 * s + 1) / 2 = s from by omega, List.sum_cons,
      List.sum_nil]
    ring

theorem sum_segLensUD (k : ℕ) : (segLensUD k).sum = (2 * k) ^ 2 := by
  unfold segLensUD
  split
  · next hpar =>
    obtain ⟨s, rfl⟩ : ∃ s, k = 2 * s := ⟨k / 2, by omega⟩
    simp only [show 2 * s / 2 = s from by omega, List.sum_cons, List.sum_nil]
    ring
  · next hpar =>
    obtain ⟨s, rfl⟩ : ∃ s, k = 2 * s + 1 := ⟨k / 2, by omega⟩
    simp only [show (2 * s + 1) / 2 = s from by omega, List.sum_cons,
      List.sum_nil]
    ring

/-- C6: with `H = W = 2*kernel` the two half-extents around Center are
`⌊kernel/2⌋` and `⌈kernel/2⌉`, unequal exactly when `kernel` is odd; the
per-parity segment-length tables used by the recoverers tile the index
range `[0, (2*kernel)^2)` consecutively with no overlap and no gap, and
both recoverers accept exactly sequences of that length. -/
theorem segment_lengths_branch_and_partition_range (k : ℕ) (hk : 1 ≤ k) :
    (k % 2 = 1 →
      (2 * k - k) / 2 = k / 2 ∧
      2 * k - ((2 * k - k) / 2 + k) = (k + 1) / 2 ∧
      (2 * k - k) / 2 ≠ 2 * k - ((2 * k - k) / 2 + k)) ∧
    coverList 0 (segLensLR k) = List.range ((2 * k) ^ 2) ∧
    coverList 0 (segLensUD k) = List.range ((2 * k) ^ 2) ∧
    (recover_window_lr (List.range ((2 * k) ^ 2)) k).isSome ∧
    (recover_window_ud (List.range ((2 * k) ^ 2)) k).isSome := by
  refine ⟨fun hodd => ⟨by omega, by omega, by omega⟩, ?_, ?_, ?_, ?_⟩
  · rw [coverList_eq_range', sum_segLensLR, List.range_eq_range']
  · rw [coverList_eq_range', sum_segLensUD, List.range_eq_range']
  · exact (recover_window_lr_isSome _ _).mpr (by simp)
  · exact (recover_window_ud_isSome _ _).mpr (by simp)

/-- Witness for C6 at the spec's parity-boundary kernels 5 and 4. -/
theorem segment_lengths_branch_and_partition_range_witness :
    ((2 * 5 - 5) / 2 = 5 / 2 ∧
      2 * 5 - ((2 * 5 - 5) / 2 + 5) = (5 + 1) / 2 ∧
      (2 * 5 - 5) / 2 ≠ 2 * 5 - ((2 * 5 - 5) / 2 + 5)) ∧
    coverList 0 (segLensLR 5) = List.range ((2 * 5) ^ 2) ∧
    coverList 0 (segLensLR 4) = List.range ((2 * 4) ^ 2) :=
  ⟨(segment_lengths_branch_and_partition_range 5 (by decide)).1 (by decide),
   (segment_lengths_branch_and_partition_range 5 (by decide)).2.1,
   (segment_lengths_branch_and_partition_range 4 (by decide)).2.1⟩



theorem blockRM_eq_flatten (g : ℕ → ℕ → α) (r0 r1 c0 c1 : ℕ) :
    blockRM g r0 r1 c0 c1 = (regionRows g r0 r1 c0 c1).flatten := rfl

theorem blockRM_map (f : α → β) (g : ℕ → ℕ → α) (r0 r1 c0 c1 : ℕ) :
    (blockRM g r0 r1 c0 c1).map f =
      blockRM (fun r c => f (g r c)) r0 r1 c0 c1 := by
  simp [blockRM, List.map_flatten, List.map_map, Function.comp_def]

theorem blockCM_map (f : α → β) (g : ℕ → ℕ → α) (r0 r1 c0 c1 : ℕ) :
    (blockCM g r0 r1 c0 c1).map f =
      blockCM (fun r c => f (g r c)) r0 r1 c0 c1 := by
  simp [blockCM, List.map_flatten, List.map_map, Function.comp_def]

theorem map_flattenLR (f : α → β) (g : ℕ → ℕ → α) (H W k : ℕ) :
    (flattenLR g H W k).map f = flattenLR (fun r c => f (g r c)) H W k := by
  simp only [flattenLR, List.map_append, blockRM_map]

theorem map_flattenUD (f : α → β) (g : ℕ → ℕ → α) (H W k : ℕ) :
    (flattenUD g H W k).map f = flattenUD (fun r c => f (g r c)) H W k := by
  simp only [flattenUD, List.map_append, blockCM_map]

theorem length_flatten_const {L : List (List α)} {w : ℕ}
    (hw : ∀ l ∈ L, l.length = w) : L.flatten.length = L.length * w := by
  induction L with
  | nil => simp
  | cons l ls ih =>
    rw [List.flatten_cons, List.length_append, List.length_cons,
      hw l (List.mem_cons_self _ _), ih (fun r hr => hw r (List.mem_cons_of_mem _ hr))]
    ring

theorem flatten_slice {L : List (List α)} {w : ℕ}
    (hw : ∀ l ∈ L, l.length = w) :
    ∀ (i : ℕ) (hi : i < L.length),
      ((L.flatten.drop (i * w)).take w) = L[i] := by
  induction L with
  | nil =>
    intro i hi
    simp at hi
  | cons l ls ih =>
    intro i hi
    cases i with
    | zero =>
      simp only [Nat.zero_mul, List.drop_zero, List.flatten_cons]
      rw [List.take_left' (hw l (List.mem_cons_self _ _))]
      rfl
    | succ n =>
      have hlen : l.length = w := hw l (List.mem_cons_self _ _)
      have harith : (n + 1) * w = l.length + n * w := by
        rw [hlen]
        ring
      rw [List.flatten_cons, harith, List.drop_append,
        ih (fun r hr => hw r (List.mem_cons_of_mem _ hr)) n
          (by simpa using Nat.lt_of_succ_lt_succ hi)]
      rfl

theorem reshape_flatten {L : List (List α)} {w : ℕ}
    (hw : ∀ l ∈ L, l.length = w) :
    reshapeRows L.flatten L.length w = some L := by
  rw [reshapeRows, if_pos (length_flatten_const hw)]
  congr 1
  apply List.ext_getElem (by simp)
  intro n h1 h2
  rw [List.getElem_map, List.getElem_range]
  exact flatten_slice hw n h2

theorem reshape_block (g : ℕ → ℕ → α) (r0 r1 c0 c1 h w : ℕ)
    (hh : r1 - r0 = h) (hw : c1 - c0 = w) :
    reshapeRows (blockRM g r0 r1 c0 c1) h w =
      some (regionRows g r0 r1 c0 c1) := by
  subst hh hw
  rw [blockRM_eq_flatten,
    show r1 - r0 = (regionRows g r0 r1 c0 c1).length from by simp [regionRows]]
  exact reshape_flatten (by
    intro l hl
    rcases List.mem_map.mp hl with ⟨i, hi, rfl⟩
    simp)

theorem map_range_offset_append (f : ℕ → α) (a b c : ℕ)
    (hab : a ≤ b) (hbc : b ≤ c) :
    (List.range (b - a)).map (fun j => f (a + j)) ++
      (List.range (c - b)).map (fun j => f (b + j)) =
      (List.range (c - a)).map (fun j => f (a + j)) := by
  have bridge : ∀ (s n : ℕ),
      (List.range n).map (fun j => f (s + j)) = (List.range' s n).map f := by
    intro s n
    rw [List.range'_eq_map_range, List.map_map]
    rfl
  rw [bridge a (b - a), bridge b (c - b), bridge a (c - a), ← List.map_append]
  congr 1
  have h := List.range'_append a (b - a) (c - b) 1
  rw [Nat.one_mul, show a + (b - a) = b from by omega] at h
  rw [h]
  congr 1
  omega

theorem hcat_regionRows (g : ℕ → ℕ → α) (r0 r1 a b c : ℕ)
    (hab : a ≤ b) (hbc : b ≤ c) :
    List.zipWith (· ++ ·) (regionRows g r0 r1 a b) (regionRows g r0 r1 b c) =
      regionRows g r0 r1 a c := by
  unfold regionRows
  rw [List.zipWith_map (· ++ ·) _ _ (List.range (r1 - r0)) (List.range (r1 - r0)),
    List.zipWith_same]
  apply List.map_congr_left
  intro i hi
  exact map_range_offset_append (fun j => g (r0 + i) j) a b c hab hbc

theorem vcat_regionRows (g : ℕ → ℕ → α) (a b c c0 c1 : ℕ)
    (hab : a ≤ b) (hbc : b ≤ c) :
    regionRows g a b c0 c1 ++ regionRows g b c c0 c1 =
      regionRows g a c c0 c1 :=
  map_range_offset_append
    (fun r => (List.range (c1 - c0)).map fun j => g r (c0 + j)) a b c hab hbc

theorem regionRows_full (g : ℕ → ℕ → α) (H W : ℕ) :
    regionRows g 0 H 0 W = gridRM g H W := by
  simp [regionRows, gridRM]

theorem seg_append_block {pre B : List α} (T : List α) {a b : ℕ}
    (ha : pre.length = a) (hB : B.length = b - a) :
    seg (pre ++ (B ++ T)) a b = B := by
  unfold seg
  rw [List.drop_left' ha, ← hB, List.take_left]

set_option maxHeartbeats 1600000 in
theorem recover_window_lr_flattenLR (g : ℕ → ℕ → α) (k : ℕ) :
    recover_window_lr (flattenLR g (2 * k) (2 * k) k) k =
      some (gridRM g (2 * k) (2 * k)) := by
  unfold recover_window_lr
  split
  · next hpar =>
    obtain ⟨s, rfl⟩ : ∃ s, k = 2 * s := ⟨k / 2, by omega⟩
    dsimp only
    simp only [show 2 * s / 2 = s from by omega, Option.bind_eq_bind]
    have hx : flattenLR g (2 * (2 * s)) (2 * (2 * s)) (2 * s) =
        blockRM g 0 s 0 s ++
        (blockRM g 0 s s (s + 2 * s) ++
        (blockRM g 0 s (s + 2 * s) (2 * (2 * s)) ++
        (blockRM g s (s + 2 * s) 0 s ++
        (blockRM g s (s + 2 * s) s (s + 2 * s) ++
        (blockRM g s (s + 2 * s) (s + 2 * s) (2 * (2 * s)) ++
        (blockRM g (s + 2 * s) (2 * (2 * s)) 0 s ++
        (blockRM g (s + 2 * s) (2 * (2 * s)) s (s + 2 * s) ++
        blockRM g (s + 2 * s) (2 * (2 * s)) (s + 2 * s) (2 * (2 * s))))))))) := by
      unfold flattenLR
      simp only [show (2 * (2 * s) - 2 * s) / 2 = s from by omega,
        List.append_assoc]
    rw [hx]
    set B1 := blockRM g 0 s 0 s with hB1
    set B2 := blockRM g 0 s s (s + 2 * s) with hB2
    set B3 := blockRM g 0 s (s + 2 * s) (2 * (2 * s)) with hB3
    set B4 := blockRM g s (s + 2 * s) 0 s with hB4
    set B5 := blockRM g s (s + 2 * s) s (s + 2 * s) with hB5
    set B6 := blockRM g s (s + 2 * s) (s + 2 * s) (2 * (2 * s)) with hB6
    set B7 := blockRM g (s + 2 * s) (2 * (2 * s)) 0 s with hB7
    set B8 := blockRM g (s + 2 * s) (2 * (2 * s)) s (s + 2 * s) with hB8
    set B9 := blockRM g (s + 2 * s) (2 * (2 * s)) (s + 2 * s) (2 * (2 * s))
      with hB9
    have L1 : B1.length = s * s := by
      rw [hB1, length_blockRM]
      simp
    have L2 : B2.length = s * s * 2 := by
      rw [hB2, length_blockRM, Nat.sub_zero,
        show s + 2 * s - s = 2 * s from by omega]
      ring
    have L3 : B3.length = s * s := by
      rw [hB3, length_blockRM, Nat.sub_zero,
        show 2 * (2 * s) - (s + 2 * s) = s from by omega]
    have L4 : B4.length = s * s * 2 := by
      rw [hB4, length_blockRM, Nat.sub_zero,
        show s + 2 * s - s = 2 * s from by omega]
      ring
    have L5 : B5.length = s * s * 4 := by
      rw [hB5, length_blockRM, show s + 2 * s - s = 2 * s from by omega]
      ring
    have L6 : B6.length = s * s * 2 := by
      rw [hB6, length_blockRM, show s + 2 * s - s = 2 * s from by omega,
        show 2 * (2 * s) - (s + 2 * s) = s from by omega]
      ring
    have L7 : B7.length = s * s := by
      rw [hB7, length_blockRM, Nat.sub_zero,
        show 2 * (2 * s) - (s + 2 * s) = s from by omega]
    have L8 : B8.length = s * s * 2 := by
      rw [hB8, length_blockRM, show 2 * (2 * s) - (s + 2 * s) = s from by omega,
        show s + 2 * s - s = 2 * s from by omega]
      ring
    have L9 : B9.length = s * s := by
      rw [hB9, length_blockRM, show 2 * (2 * s) - (s + 2 * s) = s from by omega]
    have e1 : seg (B1 ++ (B2 ++ (B3 ++ (B4 ++ (B5 ++ (B6 ++ (B7 ++ (B8 ++ B9))))))))
        0 (s * s) = B1 := seg_of_prefix _ L1
    have e2 : seg (B1 ++ (B2 ++ (B3 ++ (B4 ++ (B5 ++ (B6 ++ (B7 ++ (B8 ++ B9))))))))
        (s * s) (s * s + s * s * 2) = B2 :=
      seg_append_block _ L1 (by rw [L2]; omega)
    have e3 : seg (B1 ++ (B2 ++ (B3 ++ (B4 ++ (B5 ++ (B6 ++ (B7 ++ (B8 ++ B9))))))))
        (s * s + s * s * 2) (2 * (s * s) + s * s * 2) = B3 := by
      rw [show B1 ++ (B2 ++ (B3 ++ (B4 ++ (B5 ++ (B6 ++ (B7 ++ (B8 ++ B9))))))) =
        (B1 ++ B2) ++ (B3 ++ (B4 ++ (B5 ++ (B6 ++ (B7 ++ (B8 ++ B9)))))) from by
          simp [List.append_assoc]]
      exact seg_append_block _
        (by rw [List.length_append, L1, L2])
        (by rw [L3]; omega)
    have e4 : seg (B1 ++ (B2 ++ (B3 ++ (B4 ++ (B5 ++ (B6 ++ (B7 ++ (B8 ++ B9))))))))
        (2 * (s * s) + s * s * 2) (2 * (s * s) + 2 * (s * s * 2)) = B4 := by
      rw [show B1 ++ (B2 ++ (B3 ++ (B4 ++ (B5 ++ (B6 ++ (B7 ++ (B8 ++ B9))))))) =
        (B1 ++ (B2 ++ B3)) ++ (B4 ++ (B5 ++ (B6 ++ (B7 ++ (B8 ++ B9))))) from by
          simp [List.append_assoc]]
      exact seg_append_block _
        (by simp only [List.length_append, L1, L2, L3]; omega)
        (by rw [L4]; omega)
    have e5 : seg (B1 ++ (B2 ++ (B3 ++ (B4 ++ (B5 ++ (B6 ++ (B7 ++ (B8 ++ B9))))))))
        (2 * (s * s) + 2 * (s * s * 2)) (2 * (s * s) + 2 * (s * s * 2) + s * s * 4)
        = B5 := by
      rw [show B1 ++ (B2 ++ (B3 ++ (B4 ++ (B5 ++ (B6 ++ (B7 ++ (B8 ++ B9))))))) =
        (B1 ++ (B2 ++ (B3 ++ B4))) ++ (B5 ++ (B6 ++ (B7 ++ (B8 ++ B9)))) from by
          simp [List.append_assoc]]
      exact seg_append_block _
        (by simp only [List.length_append, L1, L2, L3, L4]; omega)
        (by rw [L5]; omega)
    have e6 : seg (B1 ++ (B2 ++ (B3 ++ (B4 ++ (B5 ++ (B6 ++ (B7 ++ (B8 ++ B9))))))))
        (2 * (s * s) + 2 * (s * s * 2) + s * s * 4)
        (2 * (s * s) + 3 * (s * s * 2) + s * s * 4) = B6 := by
      rw [show B1 ++ (B2 ++ (B3 ++ (B4 ++ (B5 ++ (B6 ++ (B7 ++ (B8 ++ B9))))))) =
        (B1 ++ (B2 ++ (B3 ++ (B4 ++ B5)))) ++ (B6 ++ (B7 ++ (B8 ++ B9))) from by
          simp [List.append_assoc]]
      exact seg_append_block _
        (by simp only [List.length_append, L1, L2, L3, L4, L5]; omega)
        (by rw [L6]; omega)
    have e7 : seg (B1 ++ (B2 ++ (B3 ++ (B4 ++ (B5 ++ (B6 ++ (B7 ++ (B8 ++ B9))))))))
        (2 * (s * s) + 3 * (s * s * 2) + s * s * 4)
        (3 * (s * s) + 3 * (s * s * 2) + s * s * 4) = B7 := by
      rw [show B1 ++ (B2 ++ (B3 ++ (B4 ++ (B5 ++ (B6 ++ (B7 ++ (B8 ++ B9))))))) =
        (B1 ++ (B2 ++ (B3 ++ (B4 ++ (B5 ++ B6))))) ++ (B7 ++ (B8 ++ B9)) from by
          simp [List.append_assoc]]
      exact seg_append_block _
        (by simp only [List.length_append, L1, L2, L3, L4, L5, L6]; omega)
        (by rw [L7]; omega)
    have e8 : seg (B1 ++ (B2 ++ (B3 ++ (B4 ++ (B5 ++ (B6 ++ (B7 ++ (B8 ++ B9))))))))
        (3 * (s * s) + 3 * (s * s * 2) + s * s * 4)
        (3 * (s * s) + 4 * (s * s * 2) + s * s * 4) = B8 := by
      rw [show B1 ++ (B2 ++ (B3 ++ (B4 ++ (B5 ++ (B6 ++ (B7 ++ (B8 ++ B9))))))) =
        (B1 ++ (B2 ++ (B3 ++ (B4 ++ (B5 ++ (B6 ++ B7)))))) ++ (B8 ++ B9) from by
          simp [List.append_assoc]]
      exact seg_append_block _
        (by simp only [List.length_append, L1, L2, L3, L4, L5, L6, L7]; omega)
        (by rw [L8]; omega)
    have e9 : (B1 ++ (B2 ++ (B3 ++ (B4 ++ (B5 ++ (B6 ++ (B7 ++ (B8 ++ B9)))))))).drop
        (3 * (s * s) + 4 * (s * s * 2) + s * s * 4) = B9 := by
      rw [show B1 ++ (B2 ++ (B3 ++ (B4 ++ (B5 ++ (B6 ++ (B7 ++ (B8 ++ B9))))))) =
        (B1 ++ (B2 ++ (B3 ++ (B4 ++ (B5 ++ (B6 ++ (B7 ++ B8))))))) ++ B9 from by
          simp [List.append_assoc]]
      apply drop_of_prefix
      simp only [List.length_append, L1, L2, L3, L4, L5, L6, L7, L8]
      omega
    have R1 : reshapeRows B1 s s = some (regionRows g 0 s 0 s) :=
      reshape_block g 0 s 0 s s s (by omega) (by omega)
    have R2 : reshapeRows B2 s (s * 2) =
        some (regionRows g 0 s s (s + 2 * s)) :=
      reshape_block g 0 s s (s + 2 * s) s (s * 2) (by omega) (by omega)
    have R3 : reshapeRows B3 s s =
        some (regionRows g 0 s (s + 2 * s) (2 * (2 * s))) :=
      reshape_block g 0 s (s + 2 * s) (2 * (2 * s)) s s (by omega) (by omega)
    have R4 : reshapeRows B4 (s * 2) s =
        some (regionRows g s (s + 2 * s) 0 s) :=
      reshape_block g s (s + 2 * s) 0 s (s * 2) s (by omega) (by omega)
    have R5 : reshapeRows B5 (s * 2) (s * 2) =
        some (regionRows g s (s + 2 * s) s (s + 2 * s)) :=
      reshape_block g s (s + 2 * s) s (s + 2 * s) (s * 2) (s * 2) (by omega)
        (by omega)
    have R6 : reshapeRows B6 (s * 2) s =
        some (regionRows g s (s + 2 * s) (s + 2 * s) (2 * (2 * s))) :=
      reshape_block g s (s + 2 * s) (s + 2 * s) (2 * (2 * s)) (s * 2) s
        (by omega) (by omega)
    have R7 : reshapeRows B7 s s =
        some (regionRows g (s + 2 * s) (2 * (2 * s)) 0 s) :=
      reshape_block g (s + 2 * s) (2 * (2 * s)) 0 s s s (by omega) (by omega)
    have R8 : reshapeRows B8 s (s * 2) =
        some (regionRows g (s + 2 * s) (2 * (2 * s)) s (s + 2 * s)) :=
      reshape_block g (s + 2 * s) (2 * (2 * s)) s (s + 2 * s) s (s * 2)
        (by omega) (by omega)
    have R9 : reshapeRows B9 s s =
        some (regionRows g (s + 2 * s) (2 * (2 * s)) (s + 2 * s) (2 * (2 * s))) :=
      reshape_block g (s + 2 * s) (2 * (2 * s)) (s + 2 * s) (2 * (2 * s)) s s
        (by omega) (by omega)
    simp only [e1, e2, e3, e4, e5, e6, e7, e8, e9, R1, R2, R3, R4, R5, R6,
      R7, R8, R9, Option.some_bind]
    simp only [hcat3]
    rw [hcat_regionRows g 0 s 0 s (s + 2 * s) (by omega) (by omega),
      hcat_regionRows g 0 s 0 (s + 2 * s) (2 * (2 * s)) (by omega) (by omega),
      hcat_regionRows g s (s + 2 * s) 0 s (s + 2 * s) (by omega) (by omega),
      hcat_regionRows g s (s + 2 * s) 0 (s + 2 * s) (2 * (2 * s)) (by omega)
        (by omega),
      hcat_regionRows g (s + 2 * s) (2 * (2 * s)) 0 s (s + 2 * s) (by omega)
        (by omega),
      hcat_regionRows g (s + 2 * s) (2 * (2 * s)) 0 (s + 2 * s) (2 * (2 * s))
        (by omega) (by omega),
      vcat_regionRows g 0 s (s + 2 * s) 0 (2 * (2 * s)) (by omega) (by omega),
      vcat_regionRows g 0 (s + 2 * s) (2 * (2 * s)) 0 (2 * (2 * s)) (by omega)
        (by omega),
      regionRows_full]
    rfl
  · next hpar =>
    obtain ⟨s, rfl⟩ : ∃ s, k = 2 * s + 1 := ⟨k / 2, by omega⟩
    dsimp only
    simp only [show (2 * s + 1) / 2 = s from by omega, Option.bind_eq_bind]
    have hx : flattenLR g (2 * (2 * s + 1)) (2 * (2 * s + 1)) (2 * s + 1) =
        blockRM g 0 s 0 s ++
        (blockRM g 0 s s (s + (2 * s + 1)) ++
        (blockRM g 0 s (s + (2 * s + 1)) (2 * (2 * s + 1)) ++
        (blockRM g s (s + (2 * s + 1)) 0 s ++
        (blockRM g s (s + (2 * s + 1)) s (s + (2 * s + 1)) ++
        (blockRM g s (s + (2 * s + 1)) (s + (2 * s + 1)) (2 * (2 * s + 1)) ++
        (blockRM g (s + (2 * s + 1)) (2 * (2 * s + 1)) 0 s ++
        (blockRM g (s + (2 * s + 1)) (2 * (2 * s + 1)) s (s + (2 * s + 1)) ++
        blockRM g (s + (2 * s + 1)) (2 * (2 * s + 1)) (s + (2 * s + 1))
          (2 * (2 * s + 1))))))))) := by
      unfold flattenLR
      simp only [show (2 * (2 * s + 1) - (2 * s + 1)) / 2 = s from by omega,
        List.append_assoc]
    rw [hx]
    set B1 := blockRM g 0 s 0 s with hB1
    set B2 := blockRM g 0 s s (s + (2 * s + 1)) with hB2
    set B3 := blockRM g 0 s (s + (2 * s + 1)) (2 * (2 * s + 1)) with hB3
    set B4 := blockRM g s (s + (2 * s + 1)) 0 s with hB4
    set B5 := blockRM g s (s + (2 * s + 1)) s (s + (2 * s + 1)) with hB5
    set B6 := blockRM g s (s + (2 * s + 1)) (s + (2 * s + 1)) (2 * (2 * s + 1))
      with hB6
    set B7 := blockRM g (s + (2 * s + 1)) (2 * (2 * s + 1)) 0 s with hB7
    set B8 := blockRM g (s + (2 * s + 1)) (2 * (2 * s + 1)) s (s + (2 * s + 1))
      with hB8
    set B9 := blockRM g (s + (2 * s + 1)) (2 * (2 * s + 1)) (s + (2 * s + 1))
      (2 * (2 * s + 1)) with hB9
    have L1 : B1.length = s * s := by
      rw [hB1, length_blockRM]
      simp
    have L2 : B2.length = s * (2 * s + 1) := by
      rw [hB2, length_blockRM, Nat.sub_zero,
        show s + (2 * s + 1) - s = 2 * s + 1 from by omega]
    have L3 : B3.length = s * (s + 1) := by
      rw [hB3, length_blockRM, Nat.sub_zero,
        show 2 * (2 * s + 1) - (s + (2 * s + 1)) = s + 1 from by omega]
    have L4 : B4.length = s * (2 * s + 1) := by
      rw [hB4, length_blockRM, Nat.sub_zero,
        show s + (2 * s + 1) - s = 2 * s + 1 from by omega]
      ring
    have L5 : B5.length = (2 * s + 1) * (2 * s + 1) := by
      rw [hB5, length_blockRM, show s + (2 * s + 1) - s = 2 * s + 1 from by omega]
    have L6 : B6.length = (s + 1) * (2 * s + 1) := by
      rw [hB6, length_blockRM,
        show s + (2 * s + 1) - s = 2 * s + 1 from by omega,
        show 2 * (2 * s + 1) - (s + (2 * s + 1)) = s + 1 from by omega]
      ring
    have L7 : B7.length = s * (s + 1) := by
      rw [hB7, length_blockRM, Nat.sub_zero,
        show 2 * (2 * s + 1) - (s + (2 * s + 1)) = s + 1 from by omega]
      ring
    have L8 : B8.length = (s + 1) * (2 * s + 1) := by
      rw [hB8, length_blockRM,
        show 2 * (2 * s + 1) - (s + (2 * s + 1)) = s + 1 from by omega,
        show s + (2 * s + 1) - s = 2 * s + 1 from by omega]
    have L9 : B9.length = (s + 1) * (s + 1) := by
      rw [hB9, length_blockRM,
        show 2 * (2 * s + 1) - (s + (2 * s + 1)) = s + 1 from by omega]
    have e1 : seg (B1 ++ (B2 ++ (B3 ++ (B4 ++ (B5 ++ (B6 ++ (B7 ++ (B8 ++ B9))))))))
        0 (s * s) = B1 := seg_of_prefix _ L1
    have e2 : seg (B1 ++ (B2 ++ (B3 ++ (B4 ++ (B5 ++ (B6 ++ (B7 ++ (B8 ++ B9))))))))
        (s * s) (s * s + s * (2 * s + 1)) = B2 :=
      seg_append_block _ L1 (by rw [L2]; omega)
    have e3 : seg (B1 ++ (B2 ++ (B3 ++ (B4 ++ (B5 ++ (B6 ++ (B7 ++ (B8 ++ B9))))))))
        (s * s + s * (2 * s + 1))
        (s * s + s * (s + 1) + s * (2 * s + 1)) = B3 := by
      rw [show B1 ++ (B2 ++ (B3 ++ (B4 ++ (B5 ++ (B6 ++ (B7 ++ (B8 ++ B9))))))) =
        (B1 ++ B2) ++ (B3 ++ (B4 ++ (B5 ++ (B6 ++ (B7 ++ (B8 ++ B9)))))) from by
          simp [List.append_assoc]]
      exact seg_append_block _
        (by rw [List.length_append, L1, L2])
        (by rw [L3]; omega)
    have e4 : seg (B1 ++ (B2 ++ (B3 ++ (B4 ++ (B5 ++ (B6 ++ (B7 ++ (B8 ++ B9))))))))
        (s * s + s * (s + 1) + s * (2 * s + 1))
        (s * s + s * (s + 1) + 2 * (s * (2 * s + 1))) = B4 := by
      rw [show B1 ++ (B2 ++ (B3 ++ (B4 ++ (B5 ++ (B6 ++ (B7 ++ (B8 ++ B9))))))) =
        (B1 ++ (B2 ++ B3)) ++ (B4 ++ (B5 ++ (B6 ++ (B7 ++ (B8 ++ B9))))) from by
          simp [List.append_assoc]]
      exact seg_append_block _
        (by simp only [List.length_append, L1, L2, L3]; omega)
        (by rw [L4]; omega)
    have e5 : seg (B1 ++ (B2 ++ (B3 ++ (B4 ++ (B5 ++ (B6 ++ (B7 ++ (B8 ++ B9))))))))
        (s * s + s * (s + 1) + 2 * (s * (2 * s + 1)))
        (s * s + s * (s + 1) + 2 * (s * (2 * s + 1)) +
          (2 * s + 1) * (2 * s + 1)) = B5 := by
      rw [show B1 ++ (B2 ++ (B3 ++ (B4 ++ (B5 ++ (B6 ++ (B7 ++ (B8 ++ B9))))))) =
        (B1 ++ (B2 ++ (B3 ++ B4))) ++ (B5 ++ (B6 ++ (B7 ++ (B8 ++ B9)))) from by
          simp [List.append_assoc]]
      exact seg_append_block _
        (by simp only [List.length_append, L1, L2, L3, L4]; omega)
        (by rw [L5]; omega)
    have e6 : seg (B1 ++ (B2 ++ (B3 ++ (B4 ++ (B5 ++ (B6 ++ (B7 ++ (B8 ++ B9))))))))
        (s * s + s * (s + 1) + 2 * (s * (2 * s + 1)) +
          (2 * s + 1) * (2 * s + 1))
        (s * s + s * (s + 1) + 2 * (s * (2 * s + 1)) +
          (s + 1) * (2 * s + 1) + (2 * s + 1) * (2 * s + 1)) = B6 := by
      rw [show B1 ++ (B2 ++ (B3 ++ (B4 ++ (B5 ++ (B6 ++ (B7 ++ (B8 ++ B9))))))) =
        (B1 ++ (B2 ++ (B3 ++ (B4 ++ B5)))) ++ (B6 ++ (B7 ++ (B8 ++ B9))) from by
          simp [List.append_assoc]]
      exact seg_append_block _
        (by simp only [List.length_append, L1, L2, L3, L4, L5]; omega)
        (by rw [L6]; omega)
    have e7 : seg (B1 ++ (B2 ++ (B3 ++ (B4 ++ (B5 ++ (B6 ++ (B7 ++ (B8 ++ B9))))))))
        (s * s + s * (s + 1) + 2 * (s * (2 * s + 1)) +
          (s + 1) * (2 * s + 1) + (2 * s + 1) * (2 * s + 1))
        (s * s + 2 * (s * (s + 1)) + 2 * (s * (2 * s + 1)) +
          (s + 1) * (2 * s + 1) + (2 * s + 1) * (2 * s + 1)) = B7 := by
      rw [show B1 ++ (B2 ++ (B3 ++ (B4 ++ (B5 ++ (B6 ++ (B7 ++ (B8 ++ B9))))))) =
        (B1 ++ (B2 ++ (B3 ++ (B4 ++ (B5 ++ B6))))) ++ (B7 ++ (B8 ++ B9)) from by
          simp [List.append_assoc]]
      exact seg_append_block _
        (by simp only [List.length_append, L1, L2, L3, L4, L5, L6]; omega)
        (by rw [L7]; omega)
    have e8 : seg (B1 ++ (B2 ++ (B3 ++ (B4 ++ (B5 ++ (B6 ++ (B7 ++ (B8 ++ B9))))))))
        (s * s + 2 * (s * (s + 1)) + 2 * (s * (2 * s + 1)) +
          (s + 1) * (2 * s + 1) + (2 * s + 1) * (2 * s + 1))
        (s * s + 2 * (s * (s + 1)) + 2 * (s * (2 * s + 1)) +
          2 * ((s + 1) * (2 * s + 1)) + (2 * s + 1) * (2 * s + 1)) = B8 := by
      rw [show B1 ++ (B2 ++ (B3 ++ (B4 ++ (B5 ++ (B6 ++ (B7 ++ (B8 ++ B9))))))) =
        (B1 ++ (B2 ++ (B3 ++ (B4 ++ (B5 ++ (B6 ++ B7)))))) ++ (B8 ++ B9) from by
          simp [List.append_assoc]]
      exact seg_append_block _
        (by simp only [List.length_append, L1, L2, L3, L4, L5, L6, L7]; omega)
        (by rw [L8]; omega)
    have e9 : (B1 ++ (B2 ++ (B3 ++ (B4 ++ (B5 ++ (B6 ++ (B7 ++ (B8 ++ B9)))))))).drop
        (s * s + 2 * (s * (s + 1)) + 2 * (s * (2 * s + 1)) +
          2 * ((s + 1) * (2 * s + 1)) + (2 * s + 1) * (2 * s + 1)) = B9 := by
      rw [show B1 ++ (B2 ++ (B3 ++ (B4 ++ (B5 ++ (B6 ++ (B7 ++ (B8 ++ B9))))))) =
        (B1 ++ (B2 ++ (B3 ++ (B4 ++ (B5 ++ (B6 ++ (B7 ++ B8))))))) ++ B9 from by
          simp [List.append_assoc]]
      apply drop_of_prefix
      simp only [List.length_append, L1, L2, L3, L4, L5, L6, L7, L8]
      omega
    have R1 : reshapeRows B1 s s = some (regionRows g 0 s 0 s) :=
      reshape_block g 0 s 0 s s s (by omega) (by omega)
    have R2 : reshapeRows B2 s (2 * s + 1) =
        some (regionRows g 0 s s (s + (2 * s + 1))) :=
      reshape_block g 0 s s (s + (2 * s + 1)) s (2 * s + 1) (by omega)
        (by omega)
    have R3 : reshapeRows B3 s (s + 1) =
        some (regionRows g 0 s (s + (2 * s + 1)) (2 * (2 * s + 1))) :=
      reshape_block g 0 s (s + (2 * s + 1)) (2 * (2 * s + 1)) s (s + 1)
        (by omega) (by omega)
    have R4 : reshapeRows B4 (2 * s + 1) s =
        some (regionRows g s (s + (2 * s + 1)) 0 s) :=
      reshape_block g s (s + (2 * s + 1)) 0 s (2 * s + 1) s (by omega)
        (by omega)
    have R5 : reshapeRows B5 (2 * s + 1) (2 * s + 1) =
        some (regionRows g s (s + (2 * s + 1)) s (s + (2 * s + 1))) :=
      reshape_block g s (s + (2 * s + 1)) s (s + (2 * s + 1)) (2 * s + 1)
        (2 * s + 1) (by omega) (by omega)
    have R6 : reshapeRows B6 (2 * s + 1) (s + 1) =
        some (regionRows g s (s + (2 * s + 1)) (s + (2 * s + 1))
          (2 * (2 * s + 1))) :=
      reshape_block g s (s + (2 * s + 1)) (s + (2 * s + 1)) (2 * (2 * s + 1))
        (2 * s + 1) (s + 1) (by omega) (by omega)
    have R7 : reshapeRows B7 (s + 1) s =
        some (regionRows g (s + (2 * s + 1)) (2 * (2 * s + 1)) 0 s) :=
      reshape_block g (s + (2 * s + 1)) (2 * (2 * s + 1)) 0 s (s + 1) s
        (by omega) (by omega)
    have R8 : reshapeRows B8 (s + 1) (2 * s + 1) =
        some (regionRows g (s + (2 * s + 1)) (2 * (2 * s + 1)) s
          (s + (2 * s + 1))) :=
      reshape_block g (s + (2 * s + 1)) (2 * (2 * s + 1)) s (s + (2 * s + 1))
        (s + 1) (2 * s + 1) (by omega) (by omega)
    have R9 : reshapeRows B9 (s + 1) (s + 1) =
        some (regionRows g (s + (2 * s + 1)) (2 * (2 * s + 1))
          (s + (2 * s + 1)) (2 * (2 * s + 1))) :=
      reshape_block g (s + (2 * s + 1)) (2 * (2 * s + 1)) (s + (2 * s + 1))
        (2 * (2 * s + 1)) (s + 1) (s + 1) (by omega) (by omega)
    simp only [e1, e2, e3, e4, e5, e6, e7, e8, e9, R1, R2, R3, R4, R5, R6,
      R7, R8, R9, Option.some_bind]
    simp only [hcat3]
    rw [hcat_regionRows g 0 s 0 s (s + (2 * s + 1)) (by omega) (by omega),
      hcat_regionRows g 0 s 0 (s + (2 * s + 1)) (2 * (2 * s + 1)) (by omega)
        (by omega),
      hcat_regionRows g s (s + (2 * s + 1)) 0 s (s + (2 * s + 1)) (by omega)
        (by omega),
      hcat_regionRows g s (s + (2 * s + 1)) 0 (s + (2 * s + 1))
        (2 * (2 * s + 1)) (by omega) (by omega),
      hcat_regionRows g (s + (2 * s + 1)) (2 * (2 * s + 1)) 0 s
        (s + (2 * s + 1)) (by omega) (by omega),
      hcat_regionRows g (s + (2 * s + 1)) (2 * (2 * s + 1)) 0
        (s + (2 * s + 1)) (2 * (2 * s + 1)) (by omega) (by omega),
      vcat_regionRows g 0 s (s + (2 * s + 1)) 0 (2 * (2 * s + 1)) (by omega)
        (by omega),
      vcat_regionRows g 0 (s + (2 * s + 1)) (2 * (2 * s + 1)) 0
        (2 * (2 * s + 1)) (by omega) (by omega),
      regionRows_full]
    rfl

/-- C4 (amended): the recoverer computes `s_lr = lr + reverse(rl)` and
`s_ud = ud + reverse(du)` elementwise, applies `recover_window_lr` to
`s_lr` and `recover_window_ud` to `s_ud`, and returns the elementwise sum
of the two recovered grids; `recover_window_lr` is exactly the inverse of
the LR flattening on `H = W = 2*kernel` grids, but `recover_window_ud` is
not the inverse of the UD flattening (see the counterexample). -/
theorem recover_center_blocks_structure [Add α] (k : ℕ)
    (lr ud rl du : List α) :
    recover_center_blocks lr ud rl du k =
      ((recover_window_lr (List.zipWith (· + ·) lr rl.reverse) k).bind
        fun y1 =>
          (recover_window_ud (List.zipWith (· + ·) ud du.reverse) k).bind
            fun y2 => some (List.zipWith (List.zipWith (· + ·)) y1 y2)) ∧
    ∀ g : ℕ → ℕ → α,
      recover_window_lr (flattenLR g (2 * k) (2 * k) k) k =
        some (gridRM g (2 * k) (2 * k)) :=
  ⟨rfl, fun g => recover_window_lr_flattenLR g k⟩

/-- C1 (amended): on every grid with `H = W = 2*kernel` and `kernel ≥ 2`
(the only configuration the flattener accepts), the identity-scan round
trip returns the elementwise sum of twice the original grid (contributed
by the LR pair, whose recovery is exact) and the UD recovery of the
doubled UD flattening (which is not `2 × G` in general, since
`recover_window_ud` does not transpose segments back); the result is
neither `2 × G` nor `4 × G`. -/
theorem round_trip_eq_twice_lr_add_ud_roundtrip [Add α] (k : ℕ)
    (hk : 2 ≤ k) (g : ℕ → ℕ → α) :
    ∃ u, recover_window_ud
        (flattenUD (fun r c => g r c + g r c) (2 * k) (2 * k) k) k =
          some u ∧
      identity_scan_round_trip g (2 * k) (2 * k) k =
        some (List.zipWith (List.zipWith (· + ·))
          (gridRM (fun r c => g r c + g r c) (2 * k) (2 * k)) u) := by
  have hlen : (flattenUD (fun r c => g r c + g r c)
      (2 * k) (2 * k) k).length = (2 * k) ^ 2 := by
    rw [length_flattenUD (fun r c => g r c + g r c) (2 * k) (2 * k) k
      (by omega) (by omega)]
    ring
  obtain ⟨u, hu⟩ := Option.isSome_iff_exists.mp
    ((recover_window_ud_isSome
      (flattenUD (fun r c => g r c + g r c) (2 * k) (2 * k) k) k).mpr hlen)
  refine ⟨u, hu, ?_⟩
  unfold identity_scan_round_trip
  rw [show rearrange_center_blocks g (2 * k) (2 * k) k =
      some ⟨flattenLR g (2 * k) (2 * k) k, flattenUD g (2 * k) (2 * k) k,
        (flattenLR g (2 * k) (2 * k) k).reverse,
        (flattenUD g (2 * k) (2 * k) k).reverse⟩ from by
    unfold rearrange_center_blocks
    rw [if_pos (by omega)]]
  dsimp only
  unfold recover_center_blocks
  simp only [List.reverse_reverse, List.zipWith_same, map_flattenLR,
    map_flattenUD, recover_window_lr_flattenLR, hu, Option.bind_eq_bind,
    Option.some_bind]
  rfl

/-- Witness for C1 at `kernel = 2` on the §8 grid: the round trip returns
twice the grid plus twice the (transposed-center) UD round trip, with the
concrete value at cell `(1, 2)` equal to `30`, not `2 * 6 = 12`. -/
theorem round_trip_eq_twice_lr_add_ud_roundtrip_witness :
    identity_scan_round_trip tagGrid4 (2 * 2) (2 * 2) 2 =
      some (List.zipWith (List.zipWith (· + ·))
        (gridRM (fun r c => tagGrid4 r c + tagGrid4 r c) (2 * 2) (2 * 2))
        [[0, 2, 4, 6], [8, 10, 18, 14], [16, 12, 20, 22],
         [24, 26, 28, 30]]) := by
  obtain ⟨u, hu, hr⟩ :=
    round_trip_eq_twice_lr_add_ud_roundtrip 2 (by omega) tagGrid4
  have hc : recover_window_ud
      (flattenUD (fun r c => tagGrid4 r c + tagGrid4 r c) (2 * 2) (2 * 2) 2)
      2 = some [[0, 2, 4, 6], [8, 10, 18, 14], [16, 12, 20, 22],
        [24, 26, 28, 30]] := by decide
  rw [hu] at hc
  cases hc
  exact hr

end DWMAKNet
